import Mathlib

/-!
# The `event_time` processor of libbeat

A shallow embedding of `libbeat/processors/event_time/event_time.go` and
`config.go`: the resolution of the configured zone (`loadLocation`), the
windowed extraction of a timestamp candidate from the `message` field
(`parseTime`), its interpretation under the configured time format
(`parseValue`, `tryToTime`) and the orchestration in `Run`.

Conventions of the embedding.

* A Go string is the list of its bytes (`GoString`); `len` is `List.length`.
* A Go call either returns or panics (`Outcome`); a Go result `(T, error)` is a
  pair `T × Option GoError`, `none` standing for the `nil` error.
* Go's `int` is the 64-bit signed integer.  `TimeStartPos + len(TimeLayout)` is
  computed over `Int` without reduction: a string is shorter than `2^62` bytes,
  so whenever the machine sum would wrap, `TimeStartPos` already exceeds the
  length of every string and both the wrapped and the exact sum lead to the
  same slice-bounds panic.  Where wrap-around is observable (the millisecond
  product of `UNIX_MS`) the reduction is explicit (`wrapInt64`).
* What the Go standard library and third-party packages compute and the
  processor only passes on (JSON decoding, float parsing, layout parsing, the
  clock, the zone database) is a parameter, `Host`.  What the processor's own
  logic rests on is modelled: `strings.Split`, `strconv.Atoi`, the calendar
  arithmetic of `Year` and `AddDate`, and `time.Parse` on the three zone
  layouts.
-/

namespace event_time

/-! ## Go values -/

/-- A Go string: its bytes, in order. -/
abbrev GoString := List Nat

/-- The bytes of an ASCII literal. -/
def go (s : String) : GoString := s.toList.map Char.toNat

/-- The run-time panics the processor can raise. -/
inductive Panic where
  | sliceBounds
  | indexRange
  | typeAssertion
deriving DecidableEq, Repr

/-- How a Go call ends: it returns a value, or it panics. -/
inductive Outcome (α : Type) where
  | ret (a : α)
  | panic (k : Panic)
deriving DecidableEq, Repr

/-- A Go `error` value: a message (`errors.New`, `errors.Errorf`, a library
error), or a cause wrapped with a message (`errors.Wrap`, `errors.Wrapf`). -/
inductive GoError where
  | msg (text : GoString)
  | wrap (cause : GoError) (text : GoString)
deriving DecidableEq, Repr

/-- The innermost error of a chain of wraps (`errors.Cause`). -/
def GoError.cause : GoError → GoError
  | .msg t => .msg t
  | .wrap c _ => c.cause

/-- Reduction of an integer to Go's `int64` (two's complement wrap-around). -/
def wrapInt64 (n : Int) : Int := (n + 2 ^ 63) % 2 ^ 64 - 2 ^ 63

/-! ## Time -/

/-- A `*time.Location`: UTC, the machine's local zone, a fixed offset
(`time.FixedZone`) or a zone of the zone database, known by its name. -/
inductive Location where
  | UTC
  | Local
  | FixedZone (name : GoString) (offset : Int)
  | named (name : GoString)
deriving DecidableEq, Repr

/-- A `time.Time`: an instant, as seconds and nanoseconds since the Unix epoch
with `0 ≤ nsec < 10^9`, and the location it is displayed in. -/
structure Time where
  sec : Int
  nsec : Int
  loc : Location
deriving DecidableEq, Repr

/-- The zero value `time.Time{}`: January 1 of year 1, 00:00:00 UTC. -/
def Time.zero : Time := ⟨-62135596800, 0, .UTC⟩

/-- Go's `time.Unix(sec, nsec)`: the instant `sec` seconds and `nsec`
nanoseconds after the epoch, `nsec` carried into the seconds, in the local
zone. -/
def Unix (sec nsec : Int) : Time :=
  ⟨sec + nsec / 1000000000, nsec % 1000000000, .Local⟩

/-- Go's `t.UTC()`: the same instant, displayed in UTC. -/
def Time.toUTC (t : Time) : Time := { t with loc := .UTC }

/-- Go's `t.In(loc)`: the same instant, displayed in `loc`. -/
def Time.In (t : Time) (loc : Location) : Time := { t with loc := loc }

/-- Go's `t.Location()`. -/
def Time.Location (t : Time) : Location := t.loc

/-- Days from 1970-01-01 to the given day of the proleptic Gregorian calendar;
a day beyond the month's end runs on into the following months. -/
def daysFromCivil (year month day : Int) : Int :=
  let y := if month ≤ 2 then year - 1 else year
  let era := y / 400
  let yoe := y - era * 400
  let mp := if month > 2 then month - 3 else month + 9
  let doy := (153 * mp + 2) / 5 + day - 1
  let doe := yoe * 365 + yoe / 4 - yoe / 100 + doy
  era * 146097 + doe - 719468

/-- The year, month and day of the proleptic Gregorian calendar of the day
`z` days after 1970-01-01. -/
def civilFromDays (z : Int) : Int × Int × Int :=
  let z := z + 719468
  let era := z / 146097
  let doe := z - era * 146097
  let yoe := (doe - doe / 1460 + doe / 36524 - doe / 146096) / 365
  let doy := doe - (365 * yoe + yoe / 4 - yoe / 100)
  let mp := (5 * doy + 2) / 153
  let d := doy - (153 * mp + 2) / 5 + 1
  let m := if mp < 10 then mp + 3 else mp - 9
  (if m ≤ 2 then yoe + era * 400 + 1 else yoe + era * 400, m, d)

/-! ## Interface values, events, configuration -/

/-- A value of Go's `interface{}`, by dynamic type: the types the processor
tells apart, and `other` for any further type, known by its `%T` name. -/
inductive Value where
  | str (s : GoString)
  | time (t : Time)
  | commonTime (t : Time)
  | int (n : Int)
  | float64 (bits : Nat)
  | nil
  | other (goType : GoString)
deriving DecidableEq, Repr

/-- What `%T` prints for a value. -/
def Value.typeName : Value → GoString
  | .str _ => go "string"
  | .time _ => go "time.Time"
  | .commonTime _ => go "common.Time"
  | .int _ => go "int"
  | .float64 _ => go "float64"
  | .nil => go "<nil>"
  | .other t => t

/-- A Go `map[string]interface{}`: reading a key yields the first entry with
that key. -/
abbrev GoMap := List (GoString × Value)

/-- Go's `m[key]`: the entry, or the `nil` interface when there is none (also
for a `nil` map). -/
def GoMap.index (m : GoMap) (key : GoString) : Value :=
  match m.lookup key with
  | some v => v
  | none => .nil

/-- Setting `m[key] = v`: the entry is replaced where it stands, or added. -/
def GoMap.set (key : GoString) (v : Value) : GoMap → GoMap
  | [] => [(key, v)]
  | (k, w) :: rest => if k = key then (key, v) :: rest else (k, w) :: GoMap.set key v rest

/-- Modelled from the spec: the host event record (`beat.Event` of
libbeat/beat, not under src/): "a mapping of dotted field paths to values of
heterogeneous type", with the event's own receipt timestamp. -/
structure Event where
  Timestamp : Time
  Fields : GoMap
deriving DecidableEq, Repr

/-- Modelled from the spec: `event.GetValue(key)` of the host event record
(libbeat/beat, not under src/): get-by-path; an absent field is an error. -/
def Event.GetValue (e : Event) (key : GoString) : Value × Option GoError :=
  match e.Fields.lookup key with
  | some v => (v, none)
  | none => (.nil, some (.msg (go "key not found")))

/-- Modelled from the spec: `event.PutValue(key, v)` of the host event record
(libbeat/beat, not under src/): put-by-path, "overwriting any prior value
there"; no other field is touched. -/
def Event.PutValue (e : Event) (key : GoString) (v : Value) : Event × Option GoError :=
  ({ e with Fields := GoMap.set key v e.Fields }, none)

/-- The `config` struct of config.go.  The format selector is declared there
as `MessageFormat` (tag `log_format`) and read in event_time.go and in the test
as `LogFormat`; it is one field, under the name the code reads. -/
structure config where
  ID : GoString
  TargetField : GoString
  LogFormat : GoString
  Timezone : GoString
  TimeLayout : GoString
  TimeFormat : GoString
  TimeStartPos : Int
  CsvDelimiter : GoString
  CsvFieldPos : Int
  JsonField : GoString
  IgnoreFailure : Bool
  IgnoreMissing : Bool
deriving DecidableEq, Repr

/-- The `defaultConfig` of config.go; the fields it leaves out are zero. -/
def defaultConfig : config where
  ID := []
  TargetField := go "@event_time"
  LogFormat := go "TEXT"
  Timezone := []
  TimeLayout := []
  TimeFormat := go "DATE"
  TimeStartPos := 0
  CsvDelimiter := go ","
  CsvFieldPos := 0
  JsonField := []
  IgnoreFailure := false
  IgnoreMissing := false

/-- The `processor` struct: the configuration and the zone resolved from it
when the processor is built (the logger carries no behaviour). -/
structure processor extends config where
  tz : Location
deriving DecidableEq, Repr

/-- What the processor takes from outside the repository and only passes on:
`encoding/json`, the coercion to a float64 with the float arithmetic of the
conversion to nanoseconds, `time.ParseInLocation`, the clock, and the zone
database with its lookup by name. -/
structure Host where
  /-- The call json.Unmarshal of the text into a `map[string]interface{}`: an
  error, or the decoded map (left `nil`, which reads as empty, for `null`). -/
  jsonUnmarshal : GoString → Except GoError GoMap
  /-- The call common.TryToFloat64(v) of libbeat/common: the bits of the
  float64 a value coerces to (for a string, by strconv.ParseFloat), when it
  does. -/
  TryToFloat64 : Value → Option Nat
  /-- The conversion `int64(x * float64(k))` of a float64, given by its bits. -/
  scaleToInt64 : Nat → Int → Int
  /-- The result of the conversion is an int64. -/
  scaleToInt64_range : ∀ x k, -2 ^ 63 ≤ scaleToInt64 x k ∧ scaleToInt64 x k < 2 ^ 63
  /-- The call time.ParseInLocation(layout, value, loc). -/
  ParseInLocation : GoString → GoString → Location → Time × Option GoError
  /-- The reading of the clock, time.Now(). -/
  Now : Time
  /-- The offset east of UTC, in seconds, a named zone (or `Local`) has at an
  instant given in Unix seconds. -/
  zoneOffset : Location → Int → Int
  /-- The Unix second a wall-clock second count stands for in a named zone (or
  `Local`), as time.Date resolves it. -/
  wallToUnix : Location → Int → Int
  /-- The abbreviation a named zone (or `Local`) goes by at an instant given in
  Unix seconds. -/
  zoneName : Location → Int → GoString
  /-- Whether time.Parse refuses a zone offset of more than 24 hours or more
  than 60 minutes: later Go releases do, the releases of the repository's time
  take any two digits. -/
  zoneRangeChecked : Bool
  /-- The call tz.LoadLocation(name) of 4d63.com/tz: the lookup of a name in the
  zone database. -/
  LoadLocation : GoString → Except GoError Location

/-! ## The standard-library calls the processor makes on strings -/

/-- The width in bytes of the UTF-8 sequence a non-empty string starts with, as
`utf8.DecodeRuneInString` reports it: 1 for an ASCII or an invalid byte. -/
def runeSize : GoString → Nat
  | [] => 0
  | s0 :: rest =>
    let sz := if 0xC2 ≤ s0 ∧ s0 ≤ 0xDF then 2 else if 0xE0 ≤ s0 ∧ s0 ≤ 0xEF then 3
      else if 0xF0 ≤ s0 ∧ s0 ≤ 0xF4 then 4 else 1
    let lo := if s0 = 0xE0 then 0xA0 else if s0 = 0xF0 then 0x90 else 0x80
    let hi := if s0 = 0xED then 0x9F else if s0 = 0xF4 then 0x8F else 0xBF
    if sz = 1 ∨ rest.length + 1 < sz then 1
    else if ¬ (lo ≤ rest.getD 0 0 ∧ rest.getD 0 0 ≤ hi) then 1
    else if sz = 2 then 2
    else if ¬ (0x80 ≤ rest.getD 1 0 ∧ rest.getD 1 0 ≤ 0xBF) then 1
    else if sz = 3 then 3
    else if ¬ (0x80 ≤ rest.getD 2 0 ∧ rest.getD 2 0 ≤ 0xBF) then 1
    else 4

/-- Go's `explode(s, -1)` of package strings: the UTF-8 sequences of `s`, one a
piece; a byte that starts no valid sequence becomes the replacement character
U+FFFD, except in the last piece, which is what is left of `s`.  The first
argument bounds the number of pieces. -/
def explode : Nat → GoString → List GoString
  | 0, _ => []
  | fuel + 1, s =>
    if s = [] then []
    else if s.drop (runeSize s) = [] then [s]
    else
      (if 0x80 ≤ s.headD 0 ∧ runeSize s = 1 then [0xEF, 0xBF, 0xBD] else s.take (runeSize s))
        :: explode fuel (s.drop (runeSize s))

/-- Go's `strings.Index(s, sep)`: where `sep` first occurs in `s`, `none` for
the result -1. -/
def Index (sep : GoString) : GoString → Option Nat
  | [] => if sep = [] then some 0 else none
  | c :: t => if sep.isPrefixOf (c :: t) then some 0 else (Index sep t).map (· + 1)

/-- The loop of Go's `genSplit` for a non-empty separator: cut at each next
occurrence of `sep`; the first argument bounds the number of cuts. -/
def genSplit (sep : GoString) : Nat → GoString → List GoString
  | 0, s => [s]
  | fuel + 1, s =>
    match Index sep s with
    | none => [s]
    | some m => s.take m :: genSplit sep fuel (s.drop (m + sep.length))

/-- Go's `strings.Split(s, sep)`: the pieces of `s` between the occurrences of
the literal `sep`; with an empty `sep`, the UTF-8 sequences of `s`.  No split
makes more cuts than `s` has bytes. -/
def Split (s sep : GoString) : List GoString :=
  if sep = [] then explode s.length s else genSplit sep s.length s

/-- The slice expression `s[lo:hi]`: it panics unless `0 ≤ lo ≤ hi ≤ len(s)`. -/
def slice (s : GoString) (lo hi : Int) : Outcome GoString :=
  if 0 ≤ lo ∧ lo ≤ hi ∧ hi ≤ s.length then
    .ret ((s.drop lo.toNat).take (hi - lo).toNat)
  else .panic .sliceBounds

/-- The index expression `a[i]` on a slice of strings: it panics unless
`0 ≤ i < len(a)`. -/
def indexAt (a : List GoString) (i : Int) : Outcome GoString :=
  if i < 0 then .panic .indexRange
  else
    match a[i.toNat]? with
    | some x => .ret x
    | none => .panic .indexRange

/-- The type assertion `v.(string)` in its one-result form: it panics unless
the dynamic type is `string`. -/
def assertString : Value → Outcome GoString
  | .str s => .ret s
  | _ => .panic .typeAssertion

/-- One step of reading decimal digits: the value so far takes in the digit
`c`; a byte that is no digit spoils the reading. -/
def digitStep (acc : Option Nat) (c : Nat) : Option Nat :=
  acc.bind fun n => if 48 ≤ c ∧ c ≤ 57 then some (n * 10 + (c - 48)) else none

/-- The value of a non-empty run of decimal digits, `none` for anything else. -/
def parseDigits : GoString → Option Nat
  | [] => none
  | ds => ds.foldl digitStep (some 0)

/-- Go's `strconv.Atoi`: an optional sign, then decimal digits only; the value
must lie in the range of `int`. -/
def Atoi (s : GoString) : Option Int :=
  match s with
  | [] => none
  | c :: rest =>
    if c = 45 then
      (parseDigits rest).bind fun u => if u ≤ 2 ^ 63 then some (-(u : Int)) else none
    else
      (parseDigits (if c = 43 then rest else s)).bind fun u =>
        if u < 2 ^ 63 then some (u : Int) else none

/-- Modelled from the spec: `common.TryToInt` of libbeat/common (not under
src/), which is to "interpret the candidate as an integer": an integer value
is itself, a string is read by `strconv.Atoi`, anything else is refused. -/
def TryToInt : Value → Option Int
  | .int n => some n
  | .str s => Atoi s
  | _ => none

/-! ## The calendar calls of the layout branch -/

/-- The offset east of UTC, in seconds, in force in a location at an instant. -/
def Location.offsetAt (h : Host) : Location → Int → Int
  | .UTC, _ => 0
  | .FixedZone _ off, _ => off
  | l, unix => h.zoneOffset l unix

/-- Go's `t.Year()`: the calendar year of the instant in the time's location. -/
def Time.Year (h : Host) (t : Time) : Int :=
  (civilFromDays ((t.sec + t.loc.offsetAt h t.sec) / 86400)).1

/-- Go's `time.Date`: the instant of a wall-clock reading in a location; a month
outside 1..12 carries into the year, an excess of days or seconds runs on. -/
def Date (h : Host) (year month day hour min sec nsec : Int) (loc : Location) : Time :=
  let m := month - 1
  let wall := daysFromCivil (year + m / 12) (m % 12 + 1) day * 86400
    + hour * 3600 + min * 60 + sec + nsec / 1000000000
  let unix := match loc with
    | .UTC => wall
    | .FixedZone _ off => wall - off
    | l => h.wallToUnix l wall
  ⟨unix, nsec % 1000000000, loc⟩

/-- Go's `t.AddDate(years, months, days)`: the wall-clock reading of `t` in its
location, moved by the given amounts and read again by `time.Date`. -/
def Time.AddDate (h : Host) (t : Time) (years months days : Int) : Time :=
  let abs := t.sec + t.loc.offsetAt h t.sec
  let ymd := civilFromDays (abs / 86400)
  let secOfDay := abs % 86400
  Date h (ymd.1 + years) (ymd.2.1 + months) (ymd.2.2 + days)
    (secOfDay / 3600) (secOfDay % 3600 / 60) (secOfDay % 60) t.nsec t.loc

/-- Go's `t.Zone()`: the abbreviation and the offset east of UTC in force at
the instant in the time's location. -/
def Time.Zone (h : Host) (t : Time) : GoString × Int :=
  match t.loc with
  | .UTC => (go "UTC", 0)
  | .FixedZone name off => (name, off)
  | l => (h.zoneName l t.sec, h.zoneOffset l t.sec)

/-- The number two bytes stand for when both are decimal digits (`getnum` of
package time, fixed width). -/
def getnum2 (a b : Nat) : Option Nat :=
  if (48 ≤ a ∧ a ≤ 57) ∧ (48 ≤ b ∧ b ≤ 57) then some ((a - 48) * 10 + (b - 48)) else none

/-- The sign byte and the digit pairs for hours and minutes that the three
zone layouts cut out of a value: `-07` takes three bytes, `-0700` five, `-07:00`
six with a colon in the middle; the minutes of `-07` are `00`.  Text left
over, or any other layout, is refused. -/
def zoneFields (layout value : GoString) : Option (Nat × (Nat × Nat) × (Nat × Nat)) :=
  if layout = go "-07" then
    match value with
    | [s, a, b] => some (s, (a, b), (48, 48))
    | _ => none
  else if layout = go "-0700" then
    match value with
    | [s, a, b, c, d] => some (s, (a, b), (c, d))
    | _ => none
  else if layout = go "-07:00" then
    match value with
    | [s, a, b, colon, c, d] => if colon = 58 then some (s, (a, b), (c, d)) else none
    | _ => none
  else none

/-- The zone offset, in seconds east of UTC, that time.Parse reads from a value
under one of the three zone layouts: both digit pairs must be numbers (within
range, where the release checks it) and the sign `+` or `-`. -/
def parseZoneOffset (h : Host) (layout value : GoString) : Option Int :=
  match zoneFields layout value with
  | none => none
  | some (s, (a, b), (c, d)) =>
    match getnum2 a b, getnum2 c d with
    | some hr, some mm =>
      if h.zoneRangeChecked = true ∧ (hr > 24 ∨ mm > 60) then none
      else if s = 43 then some (((hr * 60 + mm) * 60 : Nat) : Int)
      else if s = 45 then some (-(((hr * 60 + mm) * 60 : Nat) : Int))
      else none
    | _, _ => none

/-- Go's `time.Parse(layout, value)` on the three zone layouts, the only ones
the processor passes (any other layout is refused here): January 1 of year 0 at
the parsed offset, in the local zone when that has the same offset then, in a
nameless fixed zone otherwise. -/
def Parse (h : Host) (layout value : GoString) : Time × Option GoError :=
  match parseZoneOffset h layout value with
  | some off =>
    let unix := (Date h 0 1 1 0 0 0 0 .UTC).sec - off
    (⟨unix, 0, if h.zoneOffset .Local unix = off then .Local else .FixedZone [] off⟩, none)
  | none => (Time.zero, some (.msg (go "parsing time: cannot parse")))

/-! ## event_time.go -/

/-- The package variable `timezoneFormats`. -/
def timezoneFormats : List GoString := [go "-07", go "-0700", go "-07:00"]

/-- The loop of `loadLocation` over the formats still to try, and the lookup in
the zone database after it. -/
def loadLocationLoop (h : Host) (timezone : GoString) : List GoString → Except GoError Location
  | [] => h.LoadLocation timezone
  | format :: rest =>
    match Parse h format timezone with
    | (t, none) => .ok (.FixedZone (t.Zone h).1 (t.Zone h).2)
    | (_, some _) => loadLocationLoop h timezone rest

/-- The function `loadLocation`: a fixed zone for the first format the
specifier parses under, else what the zone database has under that name. -/
def loadLocation (h : Host) (timezone : GoString) : Except GoError Location :=
  loadLocationLoop h timezone timezoneFormats

/-- The method `lengthOfLayout`: `len(p.TimeLayout)`. -/
def lengthOfLayout (p : processor) : Int := p.TimeLayout.length

/-- The windowing step that closes `parseTime` (its last `if`): the slice from
`TimeStartPos` of the layout's length, or up to the end of the string when that
would run past it. -/
def window (p : processor) (timeStr : GoString) : Outcome (GoString × Option GoError) :=
  if p.TimeStartPos + lengthOfLayout p > timeStr.length then
    match slice timeStr p.TimeStartPos timeStr.length with
    | .ret sub => .ret (sub, none)
    | .panic k => .panic k
  else
    match slice timeStr p.TimeStartPos (p.TimeStartPos + lengthOfLayout p) with
    | .ret sub => .ret (sub, none)
    | .panic k => .panic k

/-- The method `parseTime`: the candidate string cut out of the source value. -/
def parseTime (h : Host) (p : processor) (v : Value) : Outcome (GoString × Option GoError) :=
  match v with
  | .str timeStr =>
    if p.LogFormat = go "json" then
      match h.jsonUnmarshal timeStr with
      | .error err =>
        .ret (timeStr,
          some (.wrap err (go "could not parse time field as int or float, message: string")))
      | .ok dat =>
        match assertString (dat.index p.JsonField) with
        | .ret s => window p s
        | .panic k => .panic k
    else if p.LogFormat = go "csv" then
      match indexAt (Split timeStr p.CsvDelimiter) p.CsvFieldPos with
      | .ret s => window p s
      | .panic k => .panic k
    else window p timeStr
  | _ =>
    .ret ([], some (.msg (go "unexpected type " ++ v.typeName ++ go " for time field")))

/-- The method `parseValue`: the instant the candidate stands for under the
configured time format. -/
def parseValue (h : Host) (p : processor) (v : Value) : Outcome (Time × Option GoError) :=
  match parseTime h p v with
  | .panic k => .panic k
  | .ret (_, some err) => .ret (Time.zero, some (.wrap err (go "fail to parse time value")))
  | .ret (timeStr, none) =>
    if p.TimeFormat = go "UNIX" then
      match TryToInt (.str timeStr) with
      | some sec => .ret (Unix sec 0, none)
      | none =>
        match h.TryToFloat64 v with
        | some sec => .ret (Unix 0 (h.scaleToInt64 sec 1000000000), none)
        | none => .ret (Time.zero, some (.msg (go "could not parse time field as int or float")))
    else if p.TimeFormat = go "UNIX_MS" then
      match TryToInt (.str timeStr) with
      | some ms => .ret (Unix 0 (wrapInt64 (ms * 1000000)), none)
      | none =>
        match h.TryToFloat64 (.str timeStr) with
        | some ms => .ret (Unix 0 (h.scaleToInt64 ms 1000000), none)
        | none => .ret (Time.zero, some (.msg (go "could not parse time field as int or float")))
    else
      match h.ParseInLocation p.TimeLayout timeStr p.tz with
      | (ts, none) =>
        if ts.Year h = 0 then
          .ret (ts.AddDate h ((h.Now.In ts.Location).Year h) 0 0, none)
        else .ret (ts, none)
      | (ts, some err) => .ret (ts, some err)

/-- The method `tryToTime`: the receipt time under `LOCAL`, a typed instant as
it is, anything else through `parseValue`. -/
def tryToTime (h : Host) (p : processor) (value : Value) (event : Event) :
    Outcome (Time × Option GoError) :=
  if p.TimeFormat = go "LOCAL" then .ret (event.Timestamp, none)
  else
    match value with
    | .time v => .ret (v, none)
    | .commonTime v => .ret (v, none)
    | v => parseValue h p v

/-- The method `Run`: read `message`, convert it, put the instant as UTC into
the target field.  The event comes back with every return. -/
def Run (h : Host) (p : processor) (event : Event) : Outcome (Event × Option GoError) :=
  match event.GetValue (go "message") with
  | (_, some err) =>
    .ret (event, some (.wrap err (go "failed to get time from message field")))
  | (val, none) =>
    match tryToTime h p val event with
    | .panic k => .panic k
    | .ret (_, some err) => .ret (event, some err)
    | .ret (ts, none) =>
      match event.PutValue p.TargetField (.time ts.toUTC) with
      | (event1, some err) => .ret (event1, some err)
      | (event1, none) => .ret (event1, none)

/-- The function `newFromConfig`: the processor of a configuration, with the
zone its `Timezone` resolves to. -/
def newFromConfig (h : Host) (c : config) : Except GoError processor :=
  match loadLocation h c.Timezone with
  | .error err => .error (.wrap err (go "failed to load timezone"))
  | .ok loc => .ok { toconfig := c, tz := loc }

/-! ## Decimal notation, and the data of the repository's test -/

/-- The decimal digits of a natural number, most significant first; the first
argument bounds the number of digits. -/
def decimalNatAux : Nat → Nat → GoString
  | 0, _ => []
  | fuel + 1, n => if n < 10 then [48 + n] else decimalNatAux fuel (n / 10) ++ [48 + n % 10]

/-- The decimal representation of a natural number. -/
def decimalNat (n : Nat) : GoString := decimalNatAux (n + 1) n

/-- The decimal representation of an integer: a minus sign for a negative one,
then the digits without leading zeros. -/
def decimal (n : Int) : GoString :=
  if n < 0 then 45 :: decimalNat n.natAbs else decimalNat n.natAbs

/-- The event of eventtime_test.go: no fields but `message`, the zero
timestamp. -/
def eventOf (message : Value) : Event := ⟨Time.zero, [(go "message", message)]⟩

/-- The processor of the subtest `UNIX` of eventtime_test.go. -/
def unixTestProcessor : processor :=
  { defaultConfig with
    LogFormat := go "csv", TimeFormat := go "UNIX", TimeStartPos := 1,
    TimeLayout := go "1611560692", CsvDelimiter := go "|#|", CsvFieldPos := 2, tz := .UTC }

/-- The message of the subtest `UNIX` of eventtime_test.go. -/
def unixTestMessage : GoString :=
  go "223.104.191.18|#|-|#|[1611560692]|#|1614235492.382|bbbbbbbbb"

/-- The processor of the subtest `UNIX` with a layout of twenty bytes. -/
def bigUnixProcessor : processor :=
  { unixTestProcessor with TimeLayout := go "99999999999999999999" }

/-- The message of the subtest `UNIX` with a count of seconds of twenty digits,
beyond the range of `int`. -/
def bigUnixMessage : GoString :=
  go "223.104.191.18|#|-|#|[99999999999999999999]|#|1614235492.382|bbbbbbbbb"

/-- The processor of the subtest `date` of eventtime_test.go. -/
def dateTestProcessor : processor :=
  { defaultConfig with
    LogFormat := go "csv", TimeFormat := go "date", TimeStartPos := 1,
    TimeLayout := go "02/Jan/2006:15:04:05 -0700", CsvDelimiter := go "|#|", CsvFieldPos := 2,
    tz := .UTC }

/-- The message of the subtest `date` of eventtime_test.go. -/
def dateTestMessage : GoString :=
  go "223.104.191.18|#|-|#|[25/Jan/2021:15:44:52 +0800]|#|1614235492.382|bbbbbbbbb"

/-- The processor of the subtest `date` with a layout that has no year. -/
def yearlessProcessor : processor :=
  { dateTestProcessor with TimeLayout := go "02/Jan 15:04:05" }

/-- The message of the subtest `date` with the year and the zone left out. -/
def yearlessMessage : GoString :=
  go "223.104.191.18|#|-|#|[25/Jan 15:44:52]|#|1614235492.382|bbbbbbbbb"

/-- A processor for plain text with the given layout and start offset, the
time format left at its default. -/
def textProcessor (layout : GoString) (start : Int) : processor :=
  { defaultConfig with
    LogFormat := go "text", TimeLayout := layout, TimeStartPos := start, tz := .UTC }

/-- A processor for JSON that reads the key `time`, with the given layout and
start offset. -/
def jsonProcessor (layout : GoString) (start : Int) : processor :=
  { defaultConfig with
    LogFormat := go "json", JsonField := go "time", TimeLayout := layout,
    TimeStartPos := start, tz := .UTC }

/-- The processor of the subtest `UNIX` for plain text from offset 0, with both
ignore flags set. -/
def ignoringProcessor : processor :=
  { unixTestProcessor with
    LogFormat := go "text", TimeStartPos := 0, IgnoreFailure := true, IgnoreMissing := true }

/-- An event without the field `message`, holding an earlier `@event_time`. -/
def eventWithoutMessage : Event :=
  ⟨Time.zero, [(go "level", .str (go "info")), (go "@event_time", .str (go "earlier"))]⟩

/-- An event whose `message` is the integer 1611560692, holding an earlier
`@event_time`. -/
def eventWithIntMessage : Event :=
  ⟨Time.zero, [(go "message", .int 1611560692), (go "@event_time", .str (go "earlier"))]⟩

/-- A JSON object whose key `time` holds a string. -/
def jsonTimeString : GoString :=
  go "\x7b\"time\":\"2021-01-25T07:44:52Z\",\"level\":\"info\"\x7d"

/-- A JSON object without the key `time`. -/
def jsonNoTime : GoString := go "\x7b\"level\":\"info\"\x7d"

/-- A JSON object whose key `time` holds a number. -/
def jsonTimeNumber : GoString := go "\x7b\"time\":1611560692\x7d"

/-- A host for evaluating examples: it decodes the three JSON texts above and
reports a syntax error for any other text, parses the two timestamps of the
examples in UTC and refuses any other, coerces nothing to a float, and its
clock stands at 2021-01-25T07:44:52Z on a machine whose zones are all at
UTC and whose zone database knows UTC alone. -/
def sampleHost : Host where
  jsonUnmarshal := fun s =>
    if s = jsonTimeString then
      .ok [(go "time", .str (go "2021-01-25T07:44:52Z")), (go "level", .str (go "info"))]
    else if s = jsonNoTime then .ok [(go "level", .str (go "info"))]
    else if s = jsonTimeNumber then .ok [(go "time", .float64 4744546183450460160)]
    else .error (.msg (go "invalid character"))
  TryToFloat64 := fun _ => none
  scaleToInt64 := fun _ _ => 0
  scaleToInt64_range := fun _ _ => ⟨by norm_num, by norm_num⟩
  ParseInLocation := fun layout value loc =>
    if layout = go "02/Jan/2006:15:04:05 -0700" ∧ value = go "25/Jan/2021:15:44:52 +0800"
        ∧ loc = .UTC then
      (⟨1611560692, 0, .FixedZone [] 28800⟩, none)
    else if layout = go "02/Jan 15:04:05" ∧ value = go "25/Jan 15:44:52" ∧ loc = .UTC then
      (⟨-62165088908, 0, .UTC⟩, none)
    else (Time.zero, some (.msg (go "parsing time: cannot parse")))
  Now := ⟨1611560692, 0, .Local⟩
  zoneOffset := fun _ _ => 0
  wallToUnix := fun _ wall => wall
  zoneName := fun _ _ => go "UTC"
  zoneRangeChecked := false
  LoadLocation := fun name =>
    if name = [] ∨ name = go "UTC" then .ok .UTC
    else .error (.msg (go "unknown time zone"))

/-- The host of the examples with a float coercion that knows the text
`1614235492.382` and its conversions to nanoseconds. -/
def floatHost : Host :=
  { sampleHost with
    TryToFloat64 := fun v =>
      if v = .str (go "1614235492.382") then some 4744557402376401584 else none
    scaleToInt64 := fun x k =>
      if x = 4744557402376401584 ∧ k = 1000000000 then 1614235492381999872
      else if x = 4744557402376401584 ∧ k = 1000000 then 1614235492382000
      else 0
    scaleToInt64_range := fun x k => by
      dsimp only
      split_ifs <;> norm_num }

/-- The processor of the subtest `UNIX` with the fourth piece of the message as
the candidate: index 3, start 0, a layout as long as `1614235492.382`. -/
def floatProcessor : processor :=
  { unixTestProcessor with
    TimeStartPos := 0, TimeLayout := go "1614235492.382", CsvFieldPos := 3 }

/-- The processor of the subtest `UNIX` under the time format `LOCAL`, with a
field index beyond the pieces of the message. -/
def localProcessor : processor :=
  { unixTestProcessor with TimeFormat := go "LOCAL", CsvFieldPos := 9 }

/-- The processor of the subtest `UNIX` with the time format written in lower
case. -/
def lowerUnixProcessor : processor :=
  { unixTestProcessor with TimeFormat := go "unix" }

/-- A processor for plain text from offset 0 under the time format `UNIX_MS`. -/
def msProcessor (layout : GoString) : processor :=
  { textProcessor layout 0 with TimeFormat := go "UNIX_MS" }

/-- The host of the examples on New Year's Eve: the clock stands at
2020-12-31T20:00:00Z, and the layout parser knows the yearless candidate
`02/Jan 04:30:00 +0800`, which it reads, in UTC, as that wall clock of year 0 in
a nameless fixed zone eight hours east. -/
def newYearHost : Host :=
  { sampleHost with
    Now := ⟨1609444800, 0, .Local⟩
    ParseInLocation := fun layout value loc =>
      if layout = go "02/Jan 15:04:05 -0700" ∧ value = go "02/Jan 04:30:00 +0800"
          ∧ loc = .UTC then
        (⟨-62167145400, 0, .FixedZone [] 28800⟩, none)
      else (Time.zero, some (.msg (go "parsing time: cannot parse"))) }

/-- The fixed-offset forms of a zone specifier, as the sign (1 or -1), the
hours and the minutes they spell: a sign followed by `HH`, by `HHMM` or by
`HH:MM`; the two-digit form has no minutes. -/
def offsetForm : GoString → Option (Int × Nat × Nat)
  | [s, a, b] =>
    if (s = 43 ∨ s = 45) ∧ (48 ≤ a ∧ a ≤ 57) ∧ (48 ≤ b ∧ b ≤ 57) then
      some (if s = 43 then 1 else -1, (a - 48) * 10 + (b - 48), 0)
    else none
  | [s, a, b, c, d] =>
    if (s = 43 ∨ s = 45) ∧ (48 ≤ a ∧ a ≤ 57) ∧ (48 ≤ b ∧ b ≤ 57) ∧ (48 ≤ c ∧ c ≤ 57)
        ∧ (48 ≤ d ∧ d ≤ 57) then
      some (if s = 43 then 1 else -1, (a - 48) * 10 + (b - 48), (c - 48) * 10 + (d - 48))
    else none
  | [s, a, b, colon, c, d] =>
    if (s = 43 ∨ s = 45) ∧ (48 ≤ a ∧ a ≤ 57) ∧ (48 ≤ b ∧ b ≤ 57) ∧ colon = 58
        ∧ (48 ≤ c ∧ c ≤ 57) ∧ (48 ≤ d ∧ d ≤ 57) then
      some (if s = 43 then 1 else -1, (a - 48) * 10 + (b - 48), (c - 48) * 10 + (d - 48))
    else none
  | _ => none

/-- The wall-clock reading `t.AddDate(years, 0, 0)` hands to time.Date, in
seconds since 1970-01-01T00:00:00 on that wall clock: the month, the day and
the time of day `t` shows in its location, in the year moved by `years`. -/
def Time.movedWall (h : Host) (t : Time) (years : Int) : Int :=
  let abs := t.sec + t.loc.offsetAt h t.sec
  let ymd := civilFromDays (abs / 86400)
  daysFromCivil (ymd.1 + years) ymd.2.1 ymd.2.2 * 86400 + abs % 86400

/-- A wall-clock reading exists in a location: the instant time.Date gives the
reading in that location shows the reading again under the offset in force
then.  Every reading exists in UTC and in a fixed zone; in a zone of the
database the readings a transition skips do not. -/
def Host.readsBackAt (h : Host) (loc : Location) (wall : Int) : Prop :=
  match loc with
  | .UTC => True
  | .FixedZone _ _ => True
  | l => h.wallToUnix l wall + h.zoneOffset l (h.wallToUnix l wall) = wall

/-- The host of the examples on a Go release whose time.Parse checks the range
of a zone offset. -/
def rangeCheckingHost : Host :=
  { sampleHost with zoneRangeChecked := true }

/-- The host of the examples with the zone `Asia/Dubai` in its database: local
mean time, 3:41:12 east of UTC, until 1920 and four hours east since, so that
the wall-clock readings of the first 18 minutes and 48 seconds of 1920 do not
exist there; its layout parser reads the yearless candidate of the examples in
that zone. -/
def dubaiHost : Host :=
  { sampleHost with
    zoneOffset := fun loc unix =>
      if loc = .named (go "Asia/Dubai") then (if unix < -1577936472 then 13272 else 14400)
      else 0
    wallToUnix := fun loc wall =>
      if loc = .named (go "Asia/Dubai") then
        (if wall - 13272 < -1577936472 then wall - 13272 else wall - 14400)
      else wall
    zoneName := fun loc unix =>
      if loc = .named (go "Asia/Dubai") then
        (if unix < -1577936472 then go "LMT" else go "+04")
      else go "UTC"
    ParseInLocation := fun layout value loc =>
      if layout = go "02/Jan 15:04:05" ∧ value = go "25/Jan 15:44:52"
          ∧ loc = .named (go "Asia/Dubai") then
        (⟨-62165102180, 0, .named (go "Asia/Dubai")⟩, none)
      else (Time.zero, some (.msg (go "parsing time: cannot parse"))) }

/-- The processor of the yearless example with the resolved zone `Asia/Dubai`. -/
def dubaiProcessor : processor :=
  { yearlessProcessor with tz := .named (go "Asia/Dubai") }

/-! ## Lemmas on the embedding -/

/-- A slice expression within bounds returns the bytes from `lo` up to `hi`. -/
theorem slice_ok (s : GoString) (lo hi : Int) (h0 : 0 ≤ lo) (h1 : lo ≤ hi) (h2 : hi ≤ s.length) :
    slice s lo hi = .ret ((s.drop lo.toNat).take (hi - lo).toNat) := by
  simp [slice, h0, h1, h2]

/-- A slice expression out of bounds panics. -/
theorem slice_panic (s : GoString) (lo hi : Int) (h : lo < 0 ∨ hi < lo ∨ (s.length : Int) < hi) :
    slice s lo hi = .panic .sliceBounds := by
  unfold slice
  rw [if_neg]
  omega

/-- With the start offset inside the string, both branches of the windowing step
return the bytes from the offset, `len(TimeLayout)` of them at most. -/
theorem window_ok (p : processor) (s : GoString) (h0 : 0 ≤ p.TimeStartPos)
    (h1 : p.TimeStartPos ≤ s.length) :
    window p s = .ret ((s.drop p.TimeStartPos.toNat).take p.TimeLayout.length, none) := by
  unfold window lengthOfLayout
  split
  · rename_i hgt
    rw [slice_ok s _ _ h0 h1 (le_refl _)]
    simp only
    congr 2
    rw [List.take_of_length_le, List.take_of_length_le]
    · simp only [List.length_drop]; omega
    · simp only [List.length_drop]; omega
  · rename_i hle
    rw [slice_ok s _ _ h0 (by omega) (by omega)]
    simp

/-- With the start offset outside the string, both branches of the windowing step panic. -/
theorem window_panic (p : processor) (s : GoString)
    (h : p.TimeStartPos < 0 ∨ (s.length : Int) < p.TimeStartPos) :
    window p s = .panic .sliceBounds := by
  unfold window lengthOfLayout
  split
  · rw [slice_panic s _ _ (by omega)]
  · rw [slice_panic s _ _ (by omega)]

/-- The length of a window: the layout length, cut at the end of the string. -/
theorem length_window (s : GoString) (n L : Nat) :
    ((s.drop n).take L).length = min L (s.length - n) := by
  simp [List.length_take, List.length_drop]

/-- On a non-empty string `parseDigits` is the fold of `digitStep`. -/
theorem parseDigits_eq (ds : GoString) (hne : ds ≠ []) :
    parseDigits ds = ds.foldl digitStep (some 0) := by
  cases ds with
  | nil => exact absurd rfl hne
  | cons c t => rfl

/-- The digits written for `n` are a non-empty run of digit bytes that reads back as `n`. -/
theorem decimalNatAux_spec (fuel n : Nat) (h : n < fuel) :
    decimalNatAux fuel n ≠ [] ∧ (∀ c ∈ decimalNatAux fuel n, 48 ≤ c ∧ c ≤ 57) ∧
      (decimalNatAux fuel n).foldl digitStep (some 0) = some n := by
  induction fuel generalizing n with
  | zero => omega
  | succ fuel ih =>
    unfold decimalNatAux
    split
    · rename_i hlt
      refine ⟨by simp, ?_, ?_⟩
      · intro c hc
        simp only [List.mem_singleton] at hc
        omega
      · simp only [List.foldl_cons, List.foldl_nil, digitStep, Option.some_bind]
        rw [if_pos (by omega)]
        congr 1
        omega
    · rename_i hge
      obtain ⟨_, hdig, hfold⟩ := ih (n / 10) (by omega)
      refine ⟨by simp, ?_, ?_⟩
      · intro c hc
        rcases List.mem_append.mp hc with hc | hc
        · exact hdig c hc
        · simp only [List.mem_singleton] at hc
          omega
      · rw [List.foldl_append, hfold]
        simp only [List.foldl_cons, List.foldl_nil, digitStep, Option.some_bind]
        rw [if_pos (by omega)]
        congr 1
        omega

/-- The decimal representation of a natural number reads back as the number, and
starts with a digit. -/
theorem parseDigits_decimalNat (n : Nat) :
    parseDigits (decimalNat n) = some n ∧
      ∃ c t, decimalNat n = c :: t ∧ 48 ≤ c ∧ c ≤ 57 := by
  obtain ⟨hne, hdig, hfold⟩ := decimalNatAux_spec (n + 1) n (by omega)
  unfold decimalNat
  refine ⟨by rw [parseDigits_eq _ hne]; exact hfold, ?_⟩
  cases hd : decimalNatAux (n + 1) n with
  | nil => exact absurd hd hne
  | cons c t =>
    refine ⟨c, t, rfl, ?_⟩
    exact hdig c (by rw [hd]; simp)

/-- `Atoi` reads the decimal representation of every integer of the `int` range. -/
theorem Atoi_decimal (n : Int) (hlo : -2 ^ 63 ≤ n) (hhi : n < 2 ^ 63) :
    Atoi (decimal n) = some n := by
  obtain ⟨hp, c, t, hct, hc1, hc2⟩ := parseDigits_decimalNat n.natAbs
  unfold decimal
  split
  · rename_i hneg
    simp only [Atoi, if_true, hp, Option.some_bind]
    rw [if_pos (by omega)]
    congr 1
    omega
  · rename_i hpos
    rw [hct]
    simp only [Atoi]
    rw [if_neg (by omega), if_neg (by omega), ← hct, hp]
    simp only [Option.some_bind]
    rw [if_pos (by omega)]
    congr 1
    omega

/-- After `m[key] = v` the key reads `v`. -/
theorem lookup_set (m : GoMap) (key : GoString) (v : Value) :
    (GoMap.set key v m).lookup key = some v := by
  induction m with
  | nil => simp [GoMap.set, List.lookup]
  | cons kw rest ih =>
    obtain ⟨k, w⟩ := kw
    unfold GoMap.set
    split
    · simp [List.lookup]
    · rename_i hne
      have : (key == k) = false := by
        simp only [beq_eq_false_iff_ne, ne_eq]
        exact fun e => hne e.symm
      simp only [List.lookup, this]
      exact ih

/-- A field that was put reads back as the value put. -/
theorem GetValue_PutValue (e : Event) (key : GoString) (v : Value) :
    (e.PutValue key v).1.GetValue key = (v, none) := by
  simp [Event.PutValue, Event.GetValue, lookup_set]

/-- For a log format that is neither json nor csv, `parseTime` is the window of the raw string. -/
theorem parseTime_text (h : Host) (p : processor) (raw : GoString)
    (hj : p.LogFormat ≠ go "json") (hc : p.LogFormat ≠ go "csv") :
    parseTime h p (.str raw) = window p raw := by
  simp only [parseTime, if_neg hj, if_neg hc]

/-- For csv with the field index in range, `parseTime` is the window of the indexed piece. -/
theorem parseTime_csv (h : Host) (p : processor) (raw s : GoString)
    (hcsv : p.LogFormat = go "csv") (hidx : 0 ≤ p.CsvFieldPos)
    (hs : (Split raw p.CsvDelimiter)[p.CsvFieldPos.toNat]? = some s) :
    parseTime h p (.str raw) = window p s := by
  have hj : ¬ p.LogFormat = go "json" := by rw [hcsv]; decide
  simp only [parseTime, if_neg hj, if_pos hcsv, indexAt, if_neg (not_lt.mpr hidx), hs]

/-- For json with the key holding a string, `parseTime` is the window of that string. -/
theorem parseTime_json (h : Host) (p : processor) (raw s : GoString) (dat : GoMap)
    (hjson : p.LogFormat = go "json") (hdec : h.jsonUnmarshal raw = .ok dat)
    (hkey : dat.lookup p.JsonField = some (.str s)) :
    parseTime h p (.str raw) = window p s := by
  simp only [parseTime, if_pos hjson, hdec, GoMap.index, hkey, assertString]

/-- Outside `LOCAL`, a string value goes through `parseValue`. -/
theorem tryToTime_str (h : Host) (p : processor) (event : Event) (raw : GoString)
    (hloc : p.TimeFormat ≠ go "LOCAL") :
    tryToTime h p (.str raw) event = parseValue h p (.str raw) := by
  simp only [tryToTime, if_neg hloc]

/-- When the conversion succeeds, `Run` puts the instant as UTC into the target field. -/
theorem Run_of_tryToTime (h : Host) (p : processor) (event : Event) (val : Value) (ts : Time)
    (hget : event.GetValue (go "message") = (val, none))
    (htry : tryToTime h p val event = .ret (ts, none)) :
    Run h p event = .ret ((event.PutValue p.TargetField (.time ts.toUTC)).1, none) := by
  simp only [Run, hget, htry, Event.PutValue]

/-- A panic of `parseTime` on the message is a panic of `Run`. -/
theorem Run_panic_of_parseTime (h : Host) (p : processor) (event : Event) (raw : GoString)
    (k : Panic) (hget : event.GetValue (go "message") = (.str raw, none))
    (hloc : p.TimeFormat ≠ go "LOCAL") (hpt : parseTime h p (.str raw) = .panic k) :
    Run h p event = .panic k := by
  simp only [Run, hget, tryToTime_str h p event raw hloc, parseValue, hpt]

/-! ## Lemmas on events, zone layouts and the calendar -/

/-- Setting a key leaves what the other keys read. -/
theorem lookup_set_ne (m : GoMap) (key other : GoString) (v : Value) (hne : other ≠ key) :
    (GoMap.set key v m).lookup other = m.lookup other := by
  induction m with
  | nil =>
    have : (other == key) = false := by simpa using hne
    simp [GoMap.set, List.lookup, this]
  | cons kw rest ih =>
    obtain ⟨k, w⟩ := kw
    unfold GoMap.set
    split
    · rename_i hk
      subst hk
      have : (other == k) = false := by simpa using hne
      simp [List.lookup, this]
    · by_cases hok : other = k
      · subst hok
        simp [List.lookup]
      · have : (other == k) = false := by simpa using hok
        simp only [List.lookup, this]
        exact ih

/-- Setting a key twice to the same value is setting it once. -/
theorem set_set (m : GoMap) (key : GoString) (v : Value) :
    GoMap.set key v (GoMap.set key v m) = GoMap.set key v m := by
  induction m with
  | nil => simp [GoMap.set]
  | cons kw rest ih =>
    obtain ⟨k, w⟩ := kw
    by_cases hk : k = key
    · simp [GoMap.set, hk]
    · simp [GoMap.set, hk, ih]

/-- Converting to UTC twice is converting once. -/
theorem toUTC_toUTC (t : Time) : t.toUTC.toUTC = t.toUTC := rfl

/-- An integer of the `int64` range is its own reduction. -/
theorem wrapInt64_of_range (x : Int) (hlo : -2 ^ 63 ≤ x) (hhi : x < 2 ^ 63) : wrapInt64 x = x := by
  unfold wrapInt64
  omega

/-- The conversion depends on the event through its timestamp only. -/
theorem tryToTime_timestamp (h : Host) (p : processor) (v : Value) (e1 e2 : Event)
    (hts : e1.Timestamp = e2.Timestamp) : tryToTime h p v e1 = tryToTime h p v e2 := by
  simp only [tryToTime, hts]

/-- The extraction does not read the time format. -/
theorem parseTime_TimeFormat (h : Host) (p : processor) (f : GoString) (v : Value) :
    parseTime h { p with TimeFormat := f } v = parseTime h p v := rfl

/-- The bytes of the three zone layouts. -/
theorem timezoneFormats_eq :
    timezoneFormats = [[45, 48, 55], [45, 48, 55, 48, 48], [45, 48, 55, 58, 48, 48]] := by
  decide

/-- The fields the layout `-07` cuts out. -/
theorem zoneFields_short (value : GoString) :
    zoneFields [45, 48, 55] value =
      match value with
      | [s, a, b] => some (s, (a, b), (48, 48))
      | _ => none := by
  have e : go "-07" = [45, 48, 55] := by decide
  simp only [zoneFields, e, if_true]

/-- The fields the layout `-0700` cuts out. -/
theorem zoneFields_plain (value : GoString) :
    zoneFields [45, 48, 55, 48, 48] value =
      match value with
      | [s, a, b, c, d] => some (s, (a, b), (c, d))
      | _ => none := by
  have e1 : go "-07" = [45, 48, 55] := by decide
  have e2 : go "-0700" = [45, 48, 55, 48, 48] := by decide
  have n1 : ¬ ([45, 48, 55, 48, 48] : GoString) = [45, 48, 55] := by decide
  simp only [zoneFields, e1, e2, if_neg n1, if_true]

/-- The fields the layout `-07:00` cuts out. -/
theorem zoneFields_colon (value : GoString) :
    zoneFields [45, 48, 55, 58, 48, 48] value =
      match value with
      | [s, a, b, colon, c, d] => if colon = 58 then some (s, (a, b), (c, d)) else none
      | _ => none := by
  have e1 : go "-07" = [45, 48, 55] := by decide
  have e2 : go "-0700" = [45, 48, 55, 48, 48] := by decide
  have e3 : go "-07:00" = [45, 48, 55, 58, 48, 48] := by decide
  have n1 : ¬ ([45, 48, 55, 58, 48, 48] : GoString) = [45, 48, 55] := by decide
  have n2 : ¬ ([45, 48, 55, 58, 48, 48] : GoString) = [45, 48, 55, 48, 48] := by decide
  simp only [zoneFields, e1, e2, e3, if_neg n1, if_neg n2, if_true]

/-- A format the specifier parses under ends the loop with a fixed zone of the
parsed offset. -/
theorem loadLocationLoop_some (h : Host) (timezone format : GoString) (rest : List GoString)
    (off : Int) (hp : parseZoneOffset h format timezone = some off) :
    ∃ name, loadLocationLoop h timezone (format :: rest) = .ok (.FixedZone name off) := by
  simp only [loadLocationLoop, Parse, hp]
  by_cases hl : h.zoneOffset .Local ((Date h 0 1 1 0 0 0 0 .UTC).sec - off) = off
  · refine ⟨h.zoneName .Local ((Date h 0 1 1 0 0 0 0 .UTC).sec - off), ?_⟩
    simp only [Time.Zone, hl, if_true]
  · refine ⟨[], ?_⟩
    simp only [Time.Zone, hl, if_false]

/-- A format the specifier does not parse under passes the loop on. -/
theorem loadLocationLoop_none (h : Host) (timezone format : GoString) (rest : List GoString)
    (hp : parseZoneOffset h format timezone = none) :
    loadLocationLoop h timezone (format :: rest) = loadLocationLoop h timezone rest := by
  simp only [loadLocationLoop, Parse, hp]

/-- The offset read from a sign byte and two digit pairs: the fields must be a
sign and digits (within range, where checked), and the offset is the signed
count of seconds. -/
theorem zoneOffset_of_fields (h : Host) (s a b c d : Nat) :
    (match getnum2 a b, getnum2 c d with
      | some hr, some mm =>
        if h.zoneRangeChecked = true ∧ (hr > 24 ∨ mm > 60) then none
        else if s = 43 then some (((hr * 60 + mm) * 60 : Nat) : Int)
        else if s = 45 then some (-(((hr * 60 + mm) * 60 : Nat) : Int))
        else none
      | _, _ => none) =
      if (s = 43 ∨ s = 45) ∧ (48 ≤ a ∧ a ≤ 57) ∧ (48 ≤ b ∧ b ≤ 57) ∧ (48 ≤ c ∧ c ≤ 57) ∧
          (48 ≤ d ∧ d ≤ 57) ∧
          ¬ (h.zoneRangeChecked = true ∧
            ((a - 48) * 10 + (b - 48) > 24 ∨ (c - 48) * 10 + (d - 48) > 60)) then
        some ((if s = 43 then 1 else -1) * ((((a - 48) * 10 + (b - 48) : Nat) : Int) * 3600
          + (((c - 48) * 10 + (d - 48) : Nat) : Int) * 60))
      else none := by
  simp only [getnum2]
  by_cases ha : 48 ≤ a ∧ a ≤ 57
  · by_cases hb : 48 ≤ b ∧ b ≤ 57
    · by_cases hc : 48 ≤ c ∧ c ≤ 57
      · by_cases hd : 48 ≤ d ∧ d ≤ 57
        · by_cases hr : h.zoneRangeChecked = true ∧
              ((a - 48) * 10 + (b - 48) > 24 ∨ (c - 48) * 10 + (d - 48) > 60)
          · simp [ha, hb, hc, hd, hr]
          · by_cases h43 : s = 43
            · simp [ha, hb, hc, hd, hr, h43]
              ring
            · by_cases h45 : s = 45
              · simp [ha, hb, hc, hd, hr, h45]
                ring
              · simp [ha, hb, hc, hd, hr, h43, h45]
        · simp [ha, hb, hc, hd]
      · simp [ha, hb, hc]
    · simp [ha, hb]
  · simp [ha]

/-- The offset read from three bytes under `-07`. -/
theorem parseZoneOffset_short (h : Host) (s a b : Nat) :
    parseZoneOffset h [45, 48, 55] [s, a, b] =
      if (s = 43 ∨ s = 45) ∧ (48 ≤ a ∧ a ≤ 57) ∧ (48 ≤ b ∧ b ≤ 57) ∧
          ¬ (h.zoneRangeChecked = true ∧ (a - 48) * 10 + (b - 48) > 24) then
        some ((if s = 43 then 1 else -1) * ((((a - 48) * 10 + (b - 48) : Nat) : Int) * 3600
          + ((0 : Nat) : Int) * 60))
      else none := by
  simp only [parseZoneOffset, zoneFields_short, zoneOffset_of_fields]
  simp

/-- The offset read from five bytes under `-0700`. -/
theorem parseZoneOffset_plain (h : Host) (s a b c d : Nat) :
    parseZoneOffset h [45, 48, 55, 48, 48] [s, a, b, c, d] =
      if (s = 43 ∨ s = 45) ∧ (48 ≤ a ∧ a ≤ 57) ∧ (48 ≤ b ∧ b ≤ 57) ∧ (48 ≤ c ∧ c ≤ 57) ∧
          (48 ≤ d ∧ d ≤ 57) ∧
          ¬ (h.zoneRangeChecked = true ∧
            ((a - 48) * 10 + (b - 48) > 24 ∨ (c - 48) * 10 + (d - 48) > 60)) then
        some ((if s = 43 then 1 else -1) * ((((a - 48) * 10 + (b - 48) : Nat) : Int) * 3600
          + (((c - 48) * 10 + (d - 48) : Nat) : Int) * 60))
      else none := by
  simp only [parseZoneOffset, zoneFields_plain, zoneOffset_of_fields]

/-- The offset read from six bytes with a colon under `-07:00`. -/
theorem parseZoneOffset_colon (h : Host) (s a b c d : Nat) :
    parseZoneOffset h [45, 48, 55, 58, 48, 48] [s, a, b, 58, c, d] =
      if (s = 43 ∨ s = 45) ∧ (48 ≤ a ∧ a ≤ 57) ∧ (48 ≤ b ∧ b ≤ 57) ∧ (48 ≤ c ∧ c ≤ 57) ∧
          (48 ≤ d ∧ d ≤ 57) ∧
          ¬ (h.zoneRangeChecked = true ∧
            ((a - 48) * 10 + (b - 48) > 24 ∨ (c - 48) * 10 + (d - 48) > 60)) then
        some ((if s = 43 then 1 else -1) * ((((a - 48) * 10 + (b - 48) : Nat) : Int) * 3600
          + (((c - 48) * 10 + (d - 48) : Nat) : Int) * 60))
      else none := by
  simp only [parseZoneOffset, zoneFields_colon, if_true, zoneOffset_of_fields]

/-- The layout `-07` refuses a value that is not three bytes long. -/
theorem parseZoneOffset_short_length (h : Host) (value : GoString) (hl : value.length ≠ 3) :
    parseZoneOffset h [45, 48, 55] value = none := by
  rcases value with _ | ⟨s, _ | ⟨a, _ | ⟨b, _ | ⟨c, rest⟩⟩⟩⟩ <;>
    simp [parseZoneOffset, zoneFields_short] at hl ⊢

/-- The layout `-0700` refuses a value that is not five bytes long. -/
theorem parseZoneOffset_plain_length (h : Host) (value : GoString) (hl : value.length ≠ 5) :
    parseZoneOffset h [45, 48, 55, 48, 48] value = none := by
  rcases value with _ | ⟨s, _ | ⟨a, _ | ⟨b, _ | ⟨c, _ | ⟨d, _ | ⟨e, rest⟩⟩⟩⟩⟩⟩ <;>
    simp [parseZoneOffset, zoneFields_plain] at hl ⊢

/-- The layout `-07:00` refuses a value that is not six bytes long. -/
theorem parseZoneOffset_colon_length (h : Host) (value : GoString) (hl : value.length ≠ 6) :
    parseZoneOffset h [45, 48, 55, 58, 48, 48] value = none := by
  rcases value with _ | ⟨s, _ | ⟨a, _ | ⟨b, _ | ⟨c, _ | ⟨d, _ | ⟨e, _ | ⟨f, rest⟩⟩⟩⟩⟩⟩⟩ <;>
    simp [parseZoneOffset, zoneFields_colon] at hl ⊢

/-- The layout `-07:00` refuses six bytes without the colon. -/
theorem parseZoneOffset_colon_other (h : Host) (s a b x c d : Nat) (hx : x ≠ 58) :
    parseZoneOffset h [45, 48, 55, 58, 48, 48] [s, a, b, x, c, d] = none := by
  simp [parseZoneOffset, zoneFields_colon, hx]

/-- A year of the 400-year era as century, four-year block and year of the block. -/
theorem era_split (yoe : Int) (hy0 : 0 ≤ yoe) (hy1 : yoe ≤ 399) :
    ∃ c q r : Int, (0 ≤ c ∧ c ≤ 3) ∧ (0 ≤ q ∧ q ≤ 24) ∧ (0 ≤ r ∧ r ≤ 3) ∧
      yoe = 100 * c + 4 * q + r ∧ yoe / 4 = 25 * c + q ∧ yoe / 100 = c := by
  refine ⟨yoe / 100, yoe % 100 / 4, yoe % 4, ?_, ?_, ?_, ?_, ?_, rfl⟩ <;> omega

/-- The three quotients the year computation takes of a day of the era. -/
theorem era_divisions (doe c q r doy : Int) (hcb : 0 ≤ c ∧ c ≤ 3) (hqb : 0 ≤ q ∧ q ≤ 24)
    (hrb : 0 ≤ r ∧ r ≤ 3) (hd0 : 0 ≤ doy) (hd1 : doy ≤ 365)
    (hdoe : doe = 36524 * c + 1461 * q + 365 * r + doy) :
    (doe / 1460 = 25 * c + q ∨ doe / 1460 = 25 * c + q + 1) ∧
      (doe / 36524 = c ∨ doe / 36524 = c + 1) ∧
      (doe / 146096 = 0 ∨ doe / 146096 = 1) := by
  refine ⟨?_, ?_, ?_⟩ <;> omega

/-- The year of the era computed from a day of the era: the year the day was
counted from, or the next one when the day count ran one past the year. -/
theorem era_year (doe c q r doy : Int) (hcb : 0 ≤ c ∧ c ≤ 3) (hqb : 0 ≤ q ∧ q ≤ 24)
    (hrb : 0 ≤ r ∧ r ≤ 3) (hd0 : 0 ≤ doy) (hd1 : doy ≤ 365)
    (hdoe : doe = 36524 * c + 1461 * q + 365 * r + doy) :
    (doe - doe / 1460 + doe / 36524 - doe / 146096) / 365 = 100 * c + 4 * q + r ∨
      ((doe - doe / 1460 + doe / 36524 - doe / 146096) / 365 = 100 * c + 4 * q + r + 1 ∧
        doy = 365) := by
  obtain ⟨h1, h2, h3⟩ := era_divisions doe c q r doy hcb hqb hrb hd0 hd1 hdoe
  rcases h1 with h1 | h1 <;> rcases h2 with h2 | h2 <;> rcases h3 with h3 | h3 <;>
    rw [h1, h2, h3] <;> omega

/-- The day of the year computed from a day of the era lies in 0..365. -/
theorem doy_bounds (doe yoe : Int) (h0 : 0 ≤ doe) (h1 : doe ≤ 146096)
    (hy : yoe = (doe - doe / 1460 + doe / 36524 - doe / 146096) / 365) :
    0 ≤ doe - (365 * yoe + yoe / 4 - yoe / 100) ∧
      doe - (365 * yoe + yoe / 4 - yoe / 100) ≤ 365 := by
  have hd : doe / 36524 = 0 ∨ doe / 36524 = 1 ∨ doe / 36524 = 2 ∨ doe / 36524 = 3 ∨
      doe / 36524 = 4 := by omega
  have hg : yoe / 100 = 0 ∨ yoe / 100 = 1 ∨ yoe / 100 = 2 ∨ yoe / 100 = 3 := by omega
  rcases hd with hd | hd | hd | hd | hd <;> rcases hg with hg | hg | hg | hg <;> omega

/-- A century boundary is also a four-year boundary. -/
theorem leap_step (yoe : Int) :
    (yoe + 1) / 100 - yoe / 100 ≤ (yoe + 1) / 4 - yoe / 4 := by
  have h : yoe % 100 = 99 ∨ yoe % 100 < 99 := by omega
  rcases h with h | h
  · have : yoe % 4 = 3 := by omega
    omega
  · omega

/-- Counting a day of the year into the era and reading the year back gives the
year again, or March 1 of the next year for a February 29 the year does not
have. -/
theorem era_roundtrip (yoe doy : Int) (hy0 : 0 ≤ yoe) (hy1 : yoe ≤ 399)
    (hd0 : 0 ≤ doy) (hd1 : doy ≤ 365) :
    (0 ≤ yoe * 365 + yoe / 4 - yoe / 100 + doy ∧
        yoe * 365 + yoe / 4 - yoe / 100 + doy ≤ 146096) ∧
      ∃ yoe2 : Int,
        yoe2 = ((yoe * 365 + yoe / 4 - yoe / 100 + doy)
          - (yoe * 365 + yoe / 4 - yoe / 100 + doy) / 1460
          + (yoe * 365 + yoe / 4 - yoe / 100 + doy) / 36524
          - (yoe * 365 + yoe / 4 - yoe / 100 + doy) / 146096) / 365 ∧
        ((yoe2 = yoe ∧
            (yoe * 365 + yoe / 4 - yoe / 100 + doy)
              - (365 * yoe2 + yoe2 / 4 - yoe2 / 100) = doy) ∨
          (yoe2 = yoe + 1 ∧
            (yoe * 365 + yoe / 4 - yoe / 100 + doy)
              - (365 * yoe2 + yoe2 / 4 - yoe2 / 100) = 0 ∧ doy = 365)) := by
  obtain ⟨c, q, r, hcb, hqb, hrb, hyoe, h4, h100⟩ := era_split yoe hy0 hy1
  obtain ⟨doe, hdoe⟩ : ∃ doe, doe = yoe * 365 + yoe / 4 - yoe / 100 + doy := ⟨_, rfl⟩
  have hdoe2 : doe = 36524 * c + 1461 * q + 365 * r + doy := by
    rw [hdoe, h4, h100, hyoe]
    ring
  have hb : 0 ≤ doe ∧ doe ≤ 146096 := by
    clear hdoe h4 h100 hyoe
    omega
  rw [← hdoe]
  refine ⟨hb, _, rfl, ?_⟩
  have hyr := era_year doe c q r doy hcb hqb hrb hd0 hd1 hdoe2
  have hdb := doy_bounds doe _ hb.1 hb.2 rfl
  rcases hyr with hyr | ⟨hyr, h365⟩
  · left
    rw [hyr, ← hyoe] at hdb ⊢
    refine ⟨rfl, ?_⟩
    rw [hdoe]
    ring
  · right
    rw [hyr, ← hyoe] at hdb ⊢
    refine ⟨rfl, ?_, h365⟩
    have hls := leap_step yoe
    clear hdoe2 hyr hyoe h4 h100 hb
    omega

/-- `civilFromDays` with its intermediate values named. -/
theorem civilFromDays_eq (z z1 era doe yoe doy mp m : Int) (h1 : z1 = z + 719468)
    (h2 : era = z1 / 146097) (h3 : doe = z1 - era * 146097)
    (h4 : yoe = (doe - doe / 1460 + doe / 36524 - doe / 146096) / 365)
    (h5 : doy = doe - (365 * yoe + yoe / 4 - yoe / 100)) (h6 : mp = (5 * doy + 2) / 153)
    (h7 : m = if mp < 10 then mp + 3 else mp - 9) :
    civilFromDays z
      = (if m ≤ 2 then yoe + era * 400 + 1 else yoe + era * 400, m,
          doy - (153 * mp + 2) / 5 + 1) := by
  subst h1 h2 h3 h4 h5 h6 h7
  rfl

/-- `daysFromCivil` with its intermediate values named. -/
theorem daysFromCivil_eq (year month day y era yoe mp doy : Int)
    (h1 : y = if month ≤ 2 then year - 1 else year) (h2 : era = y / 400)
    (h3 : yoe = y - era * 400) (h4 : mp = if month > 2 then month - 3 else month + 9)
    (h5 : doy = (153 * mp + 2) / 5 + day - 1) :
    daysFromCivil year month day
      = era * 146097 + (yoe * 365 + yoe / 4 - yoe / 100 + doy) - 719468 := by
  subst h1 h2 h3 h4 h5
  rfl

/-- The month and the day `civilFromDays` returns come from a day of the year in
0..365. -/
theorem civilFromDays_day (z : Int) :
    ∃ doy : Int, 0 ≤ doy ∧ doy ≤ 365 ∧
      (civilFromDays z).2.1
        = (if (5 * doy + 2) / 153 < 10 then (5 * doy + 2) / 153 + 3
            else (5 * doy + 2) / 153 - 9) ∧
      (civilFromDays z).2.2 = doy - (153 * ((5 * doy + 2) / 153) + 2) / 5 + 1 := by
  obtain ⟨doe, hdoe⟩ : ∃ doe, doe = z + 719468 - (z + 719468) / 146097 * 146097 := ⟨_, rfl⟩
  have hb : 0 ≤ doe ∧ doe ≤ 146096 := by omega
  have hdb := doy_bounds doe _ hb.1 hb.2 rfl
  refine ⟨_, hdb.1, hdb.2, ?_, ?_⟩
  · rw [civilFromDays_eq z _ _ doe _ _ _ _ rfl rfl hdoe rfl rfl rfl rfl]
  · rw [civilFromDays_eq z _ _ doe _ _ _ _ rfl rfl hdoe rfl rfl rfl rfl]

/-- The month index of a day of the year, and the day of the year read back from
month and day. -/
theorem month_day_of_doy (doy : Int) (h0 : 0 ≤ doy) (h1 : doy ≤ 365) :
    (0 ≤ (5 * doy + 2) / 153 ∧ (5 * doy + 2) / 153 ≤ 11) ∧
      (doy = 365 → (5 * doy + 2) / 153 = 11) ∧
      (153 * ((5 * doy + 2) / 153) + 2) / 5
        + (doy - (153 * ((5 * doy + 2) / 153) + 2) / 5 + 1) - 1 = doy := by
  refine ⟨?_, ?_, ?_⟩ <;> omega

/-- A month and day taken from the calendar, put into any year, give a day of that
year. -/
theorem civil_year_of_doy (year doy : Int) (h0 : 0 ≤ doy) (h1 : doy ≤ 365) :
    (civilFromDays (daysFromCivil year
      (if (5 * doy + 2) / 153 < 10 then (5 * doy + 2) / 153 + 3 else (5 * doy + 2) / 153 - 9)
      (doy - (153 * ((5 * doy + 2) / 153) + 2) / 5 + 1))).1 = year := by
  obtain ⟨hmp, h365, hdoy⟩ := month_day_of_doy doy h0 h1
  obtain ⟨mp, hmpdef⟩ : ∃ mp, mp = (5 * doy + 2) / 153 := ⟨_, rfl⟩
  rw [← hmpdef] at hmp h365 hdoy ⊢
  obtain ⟨m, hm⟩ : ∃ m, m = (if mp < 10 then mp + 3 else mp - 9) := ⟨_, rfl⟩
  rw [← hm]
  obtain ⟨y, hy⟩ : ∃ y, y = (if m ≤ 2 then year - 1 else year) := ⟨_, rfl⟩
  obtain ⟨era, hera⟩ : ∃ era, era = y / 400 := ⟨_, rfl⟩
  obtain ⟨yoe, hyoe⟩ : ∃ yoe, yoe = y - era * 400 := ⟨_, rfl⟩
  have hmp2 : mp = if m > 2 then m - 3 else m + 9 := by
    rw [hm]
    split <;> split <;> omega
  have hyb : 0 ≤ yoe ∧ yoe ≤ 399 := by omega
  rw [daysFromCivil_eq year m _ y era yoe mp doy hy hera hyoe hmp2 hdoy.symm]
  obtain ⟨hdb, yoe2, hyoe2, hcase⟩ := era_roundtrip yoe doy hyb.1 hyb.2 h0 h1
  obtain ⟨doe, hdoe⟩ : ∃ doe, doe = yoe * 365 + yoe / 4 - yoe / 100 + doy := ⟨_, rfl⟩
  rw [← hdoe] at hdb hyoe2 hcase ⊢
  have e1 : era = (era * 146097 + doe - 719468 + 719468) / 146097 := by omega
  have e2 : doe = (era * 146097 + doe - 719468 + 719468) - era * 146097 := by omega
  rw [civilFromDays_eq _ _ era doe yoe2 _ _ _ rfl e1 e2 hyoe2 rfl rfl rfl]
  simp only
  rcases hcase with ⟨hsame, hdoy2⟩ | ⟨hnext, hdoy2, hlast⟩
  · rw [hdoy2, ← hmpdef, ← hm, hsame]
    have hml : m ≤ 2 ↔ ¬ mp < 10 := by
      rw [hm]
      split <;> omega
    by_cases hm2 : m ≤ 2
    · rw [if_pos hm2]
      rw [if_pos hm2] at hy
      omega
    · rw [if_neg hm2]
      rw [if_neg hm2] at hy
      omega
  · rw [hdoy2, hnext]
    have hmp11 := h365 hlast
    have hm2 : m = 2 := by
      rw [hm, hmp11]
      rfl
    rw [hm2] at hy
    simp only [le_refl, if_true] at hy
    have : ((5 * (0 : Int) + 2) / 153) = 0 := by decide
    rw [this]
    simp only [show ((0 : Int) < 10) from by decide, if_true]
    rw [if_neg (by decide)]
    omega

/-- For a wall-clock reading that exists in the location, the instant `Date`
returns shows the reading it was given. -/
theorem Date_reads_back (h : Host) (year month day hour min sec nsec : Int) (loc : Location)
    (hz : h.readsBackAt loc
      (daysFromCivil (year + (month - 1) / 12) ((month - 1) % 12 + 1) day * 86400
        + hour * 3600 + min * 60 + sec + nsec / 1000000000)) :
    (Date h year month day hour min sec nsec loc).sec
        + loc.offsetAt h (Date h year month day hour min sec nsec loc).sec
      = daysFromCivil (year + (month - 1) / 12) ((month - 1) % 12 + 1) day * 86400
        + hour * 3600 + min * 60 + sec + nsec / 1000000000 := by
  cases loc with
  | UTC => simp only [Date, Location.offsetAt, add_zero]
  | FixedZone name off => simp only [Date, Location.offsetAt, sub_add_cancel]
  | Local =>
    simp only [Date, Location.offsetAt]
    exact hz
  | named name =>
    simp only [Date, Location.offsetAt]
    exact hz

/-- The location of what `Date` returns. -/
theorem Date_loc (h : Host) (year month day hour min sec nsec : Int) (loc : Location) :
    (Date h year month day hour min sec nsec loc).loc = loc := rfl

/-- Adding years moves the calendar year by that many, when the wall-clock
reading moved to the new year exists in the location. -/
theorem Year_AddDate (h : Host) (t : Time) (years : Int)
    (hn : 0 ≤ t.nsec ∧ t.nsec < 1000000000)
    (hz : h.readsBackAt t.loc (t.movedWall h years)) :
    (t.AddDate h years 0 0).Year h = t.Year h + years := by
  obtain ⟨abs, habs⟩ : ∃ abs, abs = t.sec + t.loc.offsetAt h t.sec := ⟨_, rfl⟩
  obtain ⟨doy, hd0, hd1, hmonth, hday⟩ := civilFromDays_day (abs / 86400)
  have hyear : t.Year h = (civilFromDays (abs / 86400)).1 := by rw [habs]; rfl
  have hadd : t.AddDate h years 0 0 =
      Date h ((civilFromDays (abs / 86400)).1 + years) ((civilFromDays (abs / 86400)).2.1 + 0)
        ((civilFromDays (abs / 86400)).2.2 + 0) (abs % 86400 / 3600) (abs % 86400 % 3600 / 60)
        (abs % 86400 % 60) t.nsec t.loc := by rw [habs]; rfl
  have hmoved : t.movedWall h years =
      daysFromCivil ((civilFromDays (abs / 86400)).1 + years) (civilFromDays (abs / 86400)).2.1
        (civilFromDays (abs / 86400)).2.2 * 86400 + abs % 86400 := by rw [habs]; rfl
  rw [hmoved] at hz
  rw [hyear, hadd]
  unfold Time.Year
  obtain ⟨mp, hmp⟩ : ∃ mp, mp = (5 * doy + 2) / 153 := ⟨_, rfl⟩
  rw [← hmp] at hmonth hday
  have hmpb : 0 ≤ mp ∧ mp ≤ 11 := by omega
  obtain ⟨month, hmo⟩ : ∃ month, month = (civilFromDays (abs / 86400)).2.1 := ⟨_, rfl⟩
  rw [← hmo] at hmonth hz ⊢
  have hmb : 1 ≤ month ∧ month ≤ 12 := by
    rw [hmonth]
    split <;> omega
  have hm1 : (month + 0 - 1) / 12 = 0 := by omega
  have hm2 : (month + 0 - 1) % 12 + 1 = month := by omega
  obtain ⟨D, hD⟩ : ∃ D, D = daysFromCivil ((civilFromDays (abs / 86400)).1 + years) month
      (civilFromDays (abs / 86400)).2.2 := ⟨_, rfl⟩
  rw [← hD] at hz
  have hwall : daysFromCivil ((civilFromDays (abs / 86400)).1 + years + (month + 0 - 1) / 12)
        ((month + 0 - 1) % 12 + 1) ((civilFromDays (abs / 86400)).2.2 + 0) * 86400
        + abs % 86400 / 3600 * 3600 + abs % 86400 % 3600 / 60 * 60 + abs % 86400 % 60
        + t.nsec / 1000000000
      = D * 86400 + abs % 86400 := by
    rw [hm1, hm2, add_zero, add_zero, ← hD]
    have := hn.1
    have := hn.2
    omega
  rw [Date_loc, Date_reads_back _ _ _ _ _ _ _ _ _ (by rw [hwall]; exact hz), hwall]
  have hdiv : (D * 86400 + abs % 86400) / 86400 = D := by omega
  rw [hdiv, hD, hmonth, hday, hmp]
  exact civil_year_of_doy _ doy hd0 hd1

/-! ## The claims -/

/-- Claim C1 (amended): for log format csv and time format UNIX, when the piece at
index `CsvFieldPos` of the literal split of the message on `CsvDelimiter` carries, in bytes
`[TimeStartPos, TimeStartPos + len(TimeLayout))`, the decimal representation of an integer
`n` of the 64-bit signed range, `Run` returns no error and the target field holds the UTC
instant exactly `n` seconds after the Unix epoch, with zero sub-second part. -/
theorem C1_unix_csv (h : Host) (p : processor) (event : Event) (message s : GoString) (n : Int)
    (hcsv : p.LogFormat = go "csv") (hfmt : p.TimeFormat = go "UNIX")
    (hmsg : event.GetValue (go "message") = (.str message, none))
    (hidx : 0 ≤ p.CsvFieldPos)
    (hpiece : (Split message p.CsvDelimiter)[p.CsvFieldPos.toNat]? = some s)
    (hpos : 0 ≤ p.TimeStartPos) (hlen : p.TimeStartPos + p.TimeLayout.length ≤ s.length)
    (hcand : (s.drop p.TimeStartPos.toNat).take p.TimeLayout.length = decimal n)
    (hlo : -2 ^ 63 ≤ n) (hhi : n < 2 ^ 63) :
    Run h p event = .ret ((event.PutValue p.TargetField (.time ⟨n, 0, .UTC⟩)).1, none) ∧
      (event.PutValue p.TargetField (.time ⟨n, 0, .UTC⟩)).1.GetValue p.TargetField
        = (.time ⟨n, 0, .UTC⟩, none) := by
  refine ⟨?_, GetValue_PutValue _ _ _⟩
  have hpt : parseTime h p (.str message) = .ret (decimal n, none) := by
    rw [parseTime_csv h p message s hcsv hidx hpiece, window_ok p s hpos (by omega), hcand]
  have hloc : ¬ p.TimeFormat = go "LOCAL" := by rw [hfmt]; decide
  have htry : tryToTime h p (.str message) event = .ret (Unix n 0, none) := by
    simp only [tryToTime, if_neg hloc, parseValue, hpt, if_pos hfmt, TryToInt,
      Atoi_decimal n hlo hhi]
  rw [Run_of_tryToTime h p event _ _ hmsg htry]
  simp [Unix, Time.toUTC]

/-- Claim C1, witness: the subtest `UNIX` of eventtime_test.go; 1611560692 seconds
after the epoch is 2021-01-25T07:44:52Z. -/
theorem C1_witness :
    Run sampleHost unixTestProcessor (eventOf (.str unixTestMessage)) =
        .ret (⟨Time.zero, [(go "message", .str unixTestMessage),
          (go "@event_time", .time ⟨1611560692, 0, .UTC⟩)]⟩, none) ∧
      Date sampleHost 2021 1 25 7 44 52 0 .UTC = ⟨1611560692, 0, .UTC⟩ :=
  ⟨(C1_unix_csv sampleHost unixTestProcessor (eventOf (.str unixTestMessage)) unixTestMessage
      (go "[1611560692]") 1611560692 (by decide) (by decide) (by decide) (by decide) (by decide)
      (by decide) (by decide) (by decide) (by norm_num) (by norm_num)).1, by decide⟩

/-- Claim C1, counterexample: a piece that carries the decimal representation of
99999999999999999999, an integer beyond the `int` range.  Whatever the float coercion of
the host does with the whole message, `Run` does not write the instant that many seconds
after the epoch. -/
theorem C1_counterexample :
    (Split bigUnixMessage bigUnixProcessor.CsvDelimiter)[bigUnixProcessor.CsvFieldPos.toNat]?
        = some (go "[99999999999999999999]") ∧
      ((go "[99999999999999999999]").drop bigUnixProcessor.TimeStartPos.toNat).take
          bigUnixProcessor.TimeLayout.length = decimal 99999999999999999999 ∧
      ¬ ∃ (h : Host) (event1 : Event),
          Run h bigUnixProcessor (eventOf (.str bigUnixMessage)) = .ret (event1, none) ∧
            event1.GetValue (go "@event_time")
              = (.time ⟨99999999999999999999, 0, .UTC⟩, none) := by
  refine ⟨by decide, by decide, ?_⟩
  rintro ⟨h, event1, hrun, hget⟩
  have hpt : parseTime h bigUnixProcessor (.str bigUnixMessage)
      = .ret (go "99999999999999999999", none) := by
    rw [parseTime_csv h bigUnixProcessor bigUnixMessage (go "[99999999999999999999]")
      (by decide) (by decide) (by decide), window_ok _ _ (by decide) (by decide)]
    decide
  have hint : TryToInt (.str (go "99999999999999999999")) = none := by decide
  have hfmt : bigUnixProcessor.TimeFormat = go "UNIX" := by decide
  have hloc : ¬ bigUnixProcessor.TimeFormat = go "LOCAL" := by decide
  have hgv : (eventOf (.str bigUnixMessage)).GetValue (go "message")
      = (.str bigUnixMessage, none) := by decide
  cases hf : h.TryToFloat64 (.str bigUnixMessage) with
  | none =>
    simp only [Run, hgv, tryToTime, if_neg hloc, parseValue, hpt, if_pos hfmt, hint, hf] at hrun
    cases hrun
  | some x =>
    have hr := h.scaleToInt64_range x 1000000000
    simp only [Run, hgv, tryToTime, if_neg hloc, parseValue, hpt, if_pos hfmt, hint, hf,
      Event.PutValue, Outcome.ret.injEq, Prod.mk.injEq, and_true] at hrun
    subst hrun
    have hk : bigUnixProcessor.TargetField = go "@event_time" := by decide
    simp only [Event.GetValue, hk, lookup_set, Prod.mk.injEq, and_true, Value.time.injEq,
      Time.toUTC, Unix, Time.mk.injEq] at hget
    omega

/-- Claim C2 (amended): for log format csv and a time format other than UNIX,
UNIX_MS and LOCAL, when the piece `s` at index `CsvFieldPos` satisfies
`TimeStartPos + len(TimeLayout) ≤ len(s)`, `Run` hands exactly
`s[TimeStartPos : TimeStartPos + len(TimeLayout)]` to the layout parser, with `TimeLayout`
and the resolved zone; on a successful parse it returns no error and writes the parsed
instant as UTC into the target field, moved forward by the current year first when its year
is 0; on a failed parse it returns the event and the parser's error. -/
theorem C2_layout_csv (h : Host) (p : processor) (event : Event) (message s : GoString)
    (hcsv : p.LogFormat = go "csv")
    (hunix : p.TimeFormat ≠ go "UNIX") (hms : p.TimeFormat ≠ go "UNIX_MS")
    (hloc : p.TimeFormat ≠ go "LOCAL")
    (hmsg : event.GetValue (go "message") = (.str message, none))
    (hidx : 0 ≤ p.CsvFieldPos)
    (hpiece : (Split message p.CsvDelimiter)[p.CsvFieldPos.toNat]? = some s)
    (hpos : 0 ≤ p.TimeStartPos) (hlen : p.TimeStartPos + p.TimeLayout.length ≤ s.length) :
    Run h p event =
      match h.ParseInLocation p.TimeLayout
          ((s.drop p.TimeStartPos.toNat).take p.TimeLayout.length) p.tz with
      | (ts, none) =>
        .ret ((event.PutValue p.TargetField
          (.time (if ts.Year h = 0 then ts.AddDate h ((h.Now.In ts.Location).Year h) 0 0
            else ts).toUTC)).1, none)
      | (_, some err) => .ret (event, some err) := by
  have hpt : parseTime h p (.str message)
      = .ret ((s.drop p.TimeStartPos.toNat).take p.TimeLayout.length, none) := by
    rw [parseTime_csv h p message s hcsv hidx hpiece, window_ok p s hpos (by omega)]
  simp only [Run, hmsg, tryToTime_str h p event message hloc, parseValue, hpt, if_neg hunix,
    if_neg hms]
  rcases hres : h.ParseInLocation p.TimeLayout
      ((s.drop p.TimeStartPos.toNat).take p.TimeLayout.length) p.tz with ⟨ts, _ | err⟩
  · by_cases hy : ts.Year h = 0
    · simp only [hy, if_true, Event.PutValue]
    · simp only [hy, if_false, Event.PutValue]
  · simp only

/-- Claim C2, witness: the subtest `date` of eventtime_test.go; the candidate
`25/Jan/2021:15:44:52 +0800` is written as 2021-01-25T07:44:52Z. -/
theorem C2_witness :
    Run sampleHost dateTestProcessor (eventOf (.str dateTestMessage)) =
      .ret (⟨Time.zero, [(go "message", .str dateTestMessage),
        (go "@event_time", .time ⟨1611560692, 0, .UTC⟩)]⟩, none) :=
  (C2_layout_csv sampleHost dateTestProcessor (eventOf (.str dateTestMessage)) dateTestMessage
    (go "[25/Jan/2021:15:44:52 +0800]") (by decide) (by decide) (by decide) (by decide)
    (by decide) (by decide) (by decide) (by decide) (by decide)).trans (by decide)

/-- Claim C2, counterexample: with the layout `02/Jan 15:04:05`, which has no
year, the candidate `25/Jan 15:44:52` parses to an instant of year 0, and `Run` writes that
reading in the year of the clock, 2021-01-25T15:44:52Z, not the parsed instant. -/
theorem C2_counterexample :
    (Split yearlessMessage yearlessProcessor.CsvDelimiter)[yearlessProcessor.CsvFieldPos.toNat]?
        = some (go "[25/Jan 15:44:52]") ∧
      ((go "[25/Jan 15:44:52]").drop yearlessProcessor.TimeStartPos.toNat).take
          yearlessProcessor.TimeLayout.length = go "25/Jan 15:44:52" ∧
      sampleHost.ParseInLocation yearlessProcessor.TimeLayout (go "25/Jan 15:44:52")
          yearlessProcessor.tz = (⟨-62165088908, 0, .UTC⟩, none) ∧
      Run sampleHost yearlessProcessor (eventOf (.str yearlessMessage)) =
        .ret (⟨Time.zero, [(go "message", .str yearlessMessage),
          (go "@event_time", .time ⟨1611589492, 0, .UTC⟩)]⟩, none) ∧
      (⟨1611589492, 0, .UTC⟩ : Time) ≠ Time.toUTC ⟨-62165088908, 0, .UTC⟩ := by
  decide

/-- Claim C3: for a log format that is neither json nor csv (so for `text`), with
`0 ≤ TimeStartPos ≤ len(raw)`, `parseTime` returns without error the bytes of `raw` from
`TimeStartPos`, `len(TimeLayout)` of them or as many as are left: a substring of length
`min(len(TimeLayout), len(raw) - TimeStartPos)`, which is all of `raw[TimeStartPos:]` when
`TimeStartPos + len(TimeLayout) > len(raw)`. -/
theorem C3_text_window (h : Host) (p : processor) (raw : GoString)
    (hj : p.LogFormat ≠ go "json") (hc : p.LogFormat ≠ go "csv")
    (h0 : 0 ≤ p.TimeStartPos) (h1 : p.TimeStartPos ≤ raw.length) :
    parseTime h p (.str raw)
        = .ret ((raw.drop p.TimeStartPos.toNat).take p.TimeLayout.length, none) ∧
      ((raw.drop p.TimeStartPos.toNat).take p.TimeLayout.length).length
        = min p.TimeLayout.length (raw.length - p.TimeStartPos.toNat) ∧
      (p.TimeStartPos + p.TimeLayout.length ≤ raw.length →
        ((raw.drop p.TimeStartPos.toNat).take p.TimeLayout.length).length
          = p.TimeLayout.length) ∧
      (p.TimeStartPos + p.TimeLayout.length > raw.length →
        (raw.drop p.TimeStartPos.toNat).take p.TimeLayout.length
          = raw.drop p.TimeStartPos.toNat) := by
  refine ⟨?_, length_window _ _ _, ?_, ?_⟩
  · rw [parseTime_text h p raw hj hc, window_ok p raw h0 h1]
  · intro hle
    rw [length_window]
    omega
  · intro hgt
    apply List.take_of_length_le
    simp only [List.length_drop]
    omega

/-- Claim C3, witness: a window inside the string, and a window cut at its end. -/
theorem C3_witness :
    parseTime sampleHost (textProcessor (go "2006") 3) (.str (go "at 2021 and on"))
        = .ret (go "2021", none) ∧
      parseTime sampleHost (textProcessor (go "2006-01-02") 3) (.str (go "at 2021"))
        = .ret (go "2021", none) :=
  ⟨(C3_text_window sampleHost _ (go "at 2021 and on") (by decide) (by decide) (by decide)
      (by decide)).1.trans (by decide),
   (C3_text_window sampleHost _ (go "at 2021") (by decide) (by decide) (by decide)
      (by decide)).1.trans (by decide)⟩

/-- Claim C4 (the code diverges): when the start offset is negative or greater than
the length of the extracted string `s`, `parseTime` panics on the slice expression, for
text, csv and json alike, and so does `Run`; no error is returned. -/
theorem C4_start_offset_panics (h : Host) (p : processor) (s : GoString)
    (hbad : p.TimeStartPos < 0 ∨ (s.length : Int) < p.TimeStartPos) :
    (p.LogFormat ≠ go "json" → p.LogFormat ≠ go "csv" →
        parseTime h p (.str s) = .panic .sliceBounds) ∧
      (∀ raw : GoString, p.LogFormat = go "csv" → 0 ≤ p.CsvFieldPos →
        (Split raw p.CsvDelimiter)[p.CsvFieldPos.toNat]? = some s →
        parseTime h p (.str raw) = .panic .sliceBounds) ∧
      (∀ (raw : GoString) (dat : GoMap), p.LogFormat = go "json" →
        h.jsonUnmarshal raw = .ok dat → dat.lookup p.JsonField = some (.str s) →
        parseTime h p (.str raw) = .panic .sliceBounds) ∧
      (∀ event : Event, p.LogFormat ≠ go "json" → p.LogFormat ≠ go "csv" →
        p.TimeFormat ≠ go "LOCAL" → event.GetValue (go "message") = (.str s, none) →
        Run h p event = .panic .sliceBounds) := by
  have hw := window_panic p s hbad
  refine ⟨?_, ?_, ?_, ?_⟩
  · intro hj hc
    rw [parseTime_text h p s hj hc, hw]
  · intro raw hcsv hidx hpiece
    rw [parseTime_csv h p raw s hcsv hidx hpiece, hw]
  · intro raw dat hjson hdec hkey
    rw [parseTime_json h p raw s dat hjson hdec hkey, hw]
  · intro event hj hc hloc hget
    apply Run_panic_of_parseTime h p event s _ hget hloc
    rw [parseTime_text h p s hj hc, hw]

/-- Claim C4, witness: the text `2021` with start offset 5, and with start offset -1. -/
theorem C4_witness :
    Run sampleHost (textProcessor (go "2006") 5) (eventOf (.str (go "2021")))
        = .panic .sliceBounds ∧
      Run sampleHost (textProcessor (go "2006") (-1)) (eventOf (.str (go "2021")))
        = .panic .sliceBounds :=
  ⟨(C4_start_offset_panics sampleHost (textProcessor (go "2006") 5) (go "2021")
      (by decide)).2.2.2 _ (by decide) (by decide) (by decide) (by decide),
   (C4_start_offset_panics sampleHost (textProcessor (go "2006") (-1)) (go "2021")
      (by decide)).2.2.2 _ (by decide) (by decide) (by decide) (by decide)⟩

/-- Claim C5 (the code diverges): for log format csv, when the field index is negative
or not less than the number of pieces of the split, `parseTime` panics on the index
expression, and so does `Run`; no error is returned. -/
theorem C5_csv_index_panics (h : Host) (p : processor) (raw : GoString)
    (hcsv : p.LogFormat = go "csv")
    (hbad : p.CsvFieldPos < 0 ∨ ((Split raw p.CsvDelimiter).length : Int) ≤ p.CsvFieldPos) :
    parseTime h p (.str raw) = .panic .indexRange ∧
      (∀ event : Event, p.TimeFormat ≠ go "LOCAL" →
        event.GetValue (go "message") = (.str raw, none) →
        Run h p event = .panic .indexRange) := by
  have hj : ¬ p.LogFormat = go "json" := by rw [hcsv]; decide
  have hidx : indexAt (Split raw p.CsvDelimiter) p.CsvFieldPos = .panic .indexRange := by
    unfold indexAt
    split
    · rfl
    · rename_i hge
      have hnone : (Split raw p.CsvDelimiter)[p.CsvFieldPos.toNat]? = none := by
        apply List.getElem?_eq_none
        omega
      rw [hnone]
  have hpt : parseTime h p (.str raw) = .panic .indexRange := by
    simp only [parseTime, if_neg hj, if_pos hcsv, hidx]
  exact ⟨hpt, fun event hloc hget => Run_panic_of_parseTime h p event raw _ hget hloc hpt⟩

/-- Claim C5, witness: the message of the test has four pieces; index 4 and index -1
panic. -/
theorem C5_witness :
    (Split unixTestMessage (go "|#|")).length = 4 ∧
      Run sampleHost { unixTestProcessor with CsvFieldPos := 4 } (eventOf (.str unixTestMessage))
        = .panic .indexRange ∧
      Run sampleHost { unixTestProcessor with CsvFieldPos := -1 } (eventOf (.str unixTestMessage))
        = .panic .indexRange :=
  ⟨by decide,
   (C5_csv_index_panics sampleHost { unixTestProcessor with CsvFieldPos := 4 } unixTestMessage
      (by decide) (by decide)).2 _ (by decide) (by decide),
   (C5_csv_index_panics sampleHost { unixTestProcessor with CsvFieldPos := -1 } unixTestMessage
      (by decide) (by decide)).2 _ (by decide) (by decide)⟩

/-- Claim C6 (the code diverges): for log format json, a text that does not decode
makes `parseTime` return the wrapped decoding error; an absent key, and a key whose value is
not a string, make it panic on the type assertion. -/
theorem C6_json_failures (h : Host) (p : processor) (raw : GoString)
    (hjson : p.LogFormat = go "json") :
    (∀ err, h.jsonUnmarshal raw = .error err →
        parseTime h p (.str raw) = .ret (raw, some (.wrap err
          (go "could not parse time field as int or float, message: string")))) ∧
      (∀ dat, h.jsonUnmarshal raw = .ok dat → dat.lookup p.JsonField = none →
        parseTime h p (.str raw) = .panic .typeAssertion) ∧
      (∀ dat v, h.jsonUnmarshal raw = .ok dat → dat.lookup p.JsonField = some v →
        (∀ s, v ≠ .str s) → parseTime h p (.str raw) = .panic .typeAssertion) := by
  refine ⟨?_, ?_, ?_⟩
  · intro err hdec
    simp only [parseTime, if_pos hjson, hdec]
  · intro dat hdec hkey
    simp only [parseTime, if_pos hjson, hdec, GoMap.index, hkey, assertString]
  · intro dat v hdec hkey hv
    simp only [parseTime, if_pos hjson, hdec, GoMap.index, hkey]
    cases v with
    | str s => exact absurd rfl (hv s)
    | _ => rfl

/-- Claim C6, witness: a text that is no JSON, an object without the key, an object
whose key holds a number. -/
theorem C6_witness :
    parseTime sampleHost (jsonProcessor (go "2006-01-02T15:04:05Z") 0) (.str (go "not json"))
        = .ret (go "not json", some (.wrap (.msg (go "invalid character"))
          (go "could not parse time field as int or float, message: string"))) ∧
      parseTime sampleHost (jsonProcessor (go "2006-01-02T15:04:05Z") 0) (.str jsonNoTime)
        = .panic .typeAssertion ∧
      parseTime sampleHost (jsonProcessor (go "2006-01-02T15:04:05Z") 0) (.str jsonTimeNumber)
        = .panic .typeAssertion ∧
      Run sampleHost (jsonProcessor (go "2006-01-02T15:04:05Z") 0) (eventOf (.str jsonNoTime))
        = .panic .typeAssertion :=
  ⟨(C6_json_failures sampleHost (jsonProcessor (go "2006-01-02T15:04:05Z") 0) (go "not json")
      (by decide)).1 _ rfl,
   (C6_json_failures sampleHost (jsonProcessor (go "2006-01-02T15:04:05Z") 0) jsonNoTime
      (by decide)).2.1 [(go "level", .str (go "info"))] rfl (by decide),
   (C6_json_failures sampleHost (jsonProcessor (go "2006-01-02T15:04:05Z") 0) jsonTimeNumber
      (by decide)).2.2 [(go "time", .float64 4744546183450460160)] (.float64 4744546183450460160)
      rfl (by decide) (fun _ hv => Value.noConfusion hv),
   by decide⟩

/-- Claim C7: for log format json, when the text decodes to an object in which
`JsonField` holds a string `s`, and `0 ≤ TimeStartPos ≤ len(s)`, `parseTime` returns without
error the window `s[TimeStartPos : min(TimeStartPos + len(TimeLayout), len(s))]`, whatever
else the object holds. -/
theorem C7_json_window (h : Host) (p : processor) (raw s : GoString) (dat : GoMap)
    (hjson : p.LogFormat = go "json") (hdec : h.jsonUnmarshal raw = .ok dat)
    (hkey : dat.lookup p.JsonField = some (.str s))
    (h0 : 0 ≤ p.TimeStartPos) (h1 : p.TimeStartPos ≤ s.length) :
    parseTime h p (.str raw)
        = .ret ((s.drop p.TimeStartPos.toNat).take p.TimeLayout.length, none) ∧
      ((s.drop p.TimeStartPos.toNat).take p.TimeLayout.length).length
        = min p.TimeLayout.length (s.length - p.TimeStartPos.toNat) := by
  refine ⟨?_, length_window _ _ _⟩
  rw [parseTime_json h p raw s dat hjson hdec hkey, window_ok p s h0 h1]

/-- Claim C7, witness: the date part, and the clock part cut at the end, of the string
under the key `time`. -/
theorem C7_witness :
    parseTime sampleHost (jsonProcessor (go "2006-01-02") 0) (.str jsonTimeString)
        = .ret (go "2021-01-25", none) ∧
      parseTime sampleHost (jsonProcessor (go "15:04:05Z07:00") 11) (.str jsonTimeString)
        = .ret (go "07:44:52Z", none) :=
  ⟨(C7_json_window sampleHost (jsonProcessor (go "2006-01-02") 0) jsonTimeString
      (go "2021-01-25T07:44:52Z")
      [(go "time", .str (go "2021-01-25T07:44:52Z")), (go "level", .str (go "info"))]
      (by decide) rfl (by decide) (by decide) (by decide)).1.trans (by decide),
   (C7_json_window sampleHost (jsonProcessor (go "15:04:05Z07:00") 11) jsonTimeString
      (go "2021-01-25T07:44:52Z")
      [(go "time", .str (go "2021-01-25T07:44:52Z")), (go "level", .str (go "info"))]
      (by decide) rfl (by decide) (by decide) (by decide)).1.trans (by decide)⟩

/-- Claim C8 (the code diverges): for an event without the field `message`, `Run`
returns the event as it is together with the wrapped lookup error, for every configuration:
`IgnoreMissing` is not consulted. -/
theorem C8_missing_message_errors (h : Host) (p : processor) (event : Event)
    (hmiss : event.Fields.lookup (go "message") = none) :
    Run h p event = .ret (event, some (.wrap (.msg (go "key not found"))
      (go "failed to get time from message field"))) := by
  simp only [Run, Event.GetValue, hmiss]

/-- Claim C8, witness: with `IgnoreMissing` set, the error is returned all the same. -/
theorem C8_witness :
    ignoringProcessor.IgnoreMissing = true ∧
      Run sampleHost ignoringProcessor eventWithoutMessage =
        .ret (eventWithoutMessage, some (.wrap (.msg (go "key not found"))
          (go "failed to get time from message field"))) :=
  ⟨rfl, C8_missing_message_errors sampleHost ignoringProcessor eventWithoutMessage (by decide)⟩

/-- Claim C9 (the code diverges): outside LOCAL, a `message` that is neither a string
nor a typed instant makes `Run` return the event with the wrapped type error, and under UNIX
a candidate that is neither an integer nor a float makes it return the event with a plain,
unwrapped error, for every configuration: `IgnoreFailure` is not consulted. -/
theorem C9_failure_errors (h : Host) (p : processor) (event : Event) (v : Value)
    (hget : event.GetValue (go "message") = (v, none)) (hloc : p.TimeFormat ≠ go "LOCAL") :
    ((∀ s, v ≠ .str s) → (∀ t, v ≠ .time t) → (∀ t, v ≠ .commonTime t) →
        Run h p event = .ret (event, some (.wrap
          (.msg (go "unexpected type " ++ v.typeName ++ go " for time field"))
          (go "fail to parse time value")))) ∧
      (∀ raw cand, v = .str raw → parseTime h p (.str raw) = .ret (cand, none) →
        p.TimeFormat = go "UNIX" → TryToInt (.str cand) = none →
        h.TryToFloat64 (.str raw) = none →
        Run h p event = .ret (event,
          some (.msg (go "could not parse time field as int or float")))) := by
  refine ⟨?_, ?_⟩
  · intro hs ht hc
    cases v with
    | str s => exact absurd rfl (hs s)
    | time t => exact absurd rfl (ht t)
    | commonTime t => exact absurd rfl (hc t)
    | _ => simp only [Run, hget, tryToTime, if_neg hloc, parseValue, parseTime]
  · intro raw cand hv hpt hfmt hint hfl
    subst hv
    simp only [Run, hget, tryToTime, if_neg hloc, parseValue, hpt, if_pos hfmt, hint, hfl]

/-- Claim C9, witness: with `IgnoreFailure` set, an integer message and an unparseable
text are answered with an error all the same. -/
theorem C9_witness :
    ignoringProcessor.IgnoreFailure = true ∧
      Run sampleHost ignoringProcessor eventWithIntMessage =
        .ret (eventWithIntMessage, some (.wrap (.msg (go "unexpected type int for time field"))
          (go "fail to parse time value"))) ∧
      Run sampleHost ignoringProcessor (eventOf (.str (go "yesterday"))) =
        .ret (eventOf (.str (go "yesterday")),
          some (.msg (go "could not parse time field as int or float"))) :=
  ⟨rfl,
   (C9_failure_errors sampleHost ignoringProcessor eventWithIntMessage (.int 1611560692)
      (by decide) (by decide)).1 (fun _ hv => Value.noConfusion hv)
      (fun _ hv => Value.noConfusion hv) (fun _ hv => Value.noConfusion hv),
   (C9_failure_errors sampleHost ignoringProcessor (eventOf (.str (go "yesterday")))
      (.str (go "yesterday")) (by decide) (by decide)).2 (go "yesterday") (go "yesterday") rfl
      (by decide) (by decide) (by decide) rfl⟩

/-- Claim C10: whenever `Run` returns an error, the event it returns is the input
event, every field as before; and the error comes from the lookup of `message` or is the one
the conversion returned. -/
theorem C10_error_leaves_event (h : Host) (p : processor) (event event1 : Event) (err : GoError)
    (hrun : Run h p event = .ret (event1, some err)) :
    event1 = event ∧
      ((event.GetValue (go "message")).2 ≠ none ∨
        ∃ ts, tryToTime h p (event.GetValue (go "message")).1 event = .ret (ts, some err)) := by
  unfold Run at hrun
  rcases hg : event.GetValue (go "message") with ⟨val, _ | e⟩
  · rw [hg] at hrun
    simp only at hrun
    rcases ht : tryToTime h p val event with ⟨ts, _ | e2⟩ | k
    · rw [ht] at hrun
      simp [Event.PutValue] at hrun
    · rw [ht] at hrun
      simp only [Outcome.ret.injEq, Prod.mk.injEq, Option.some.injEq] at hrun
      obtain ⟨h1, h2⟩ := hrun
      subst h1 h2
      exact ⟨rfl, Or.inr ⟨ts, rfl⟩⟩
    · rw [ht] at hrun
      cases hrun
  · rw [hg] at hrun
    simp only [Outcome.ret.injEq, Prod.mk.injEq] at hrun
    exact ⟨hrun.1.symm, Or.inl (by simp)⟩

/-- Claim C10, witness: an integer message; the earlier `@event_time` is still there. -/
theorem C10_witness :
    Run sampleHost unixTestProcessor eventWithIntMessage =
        .ret (eventWithIntMessage, some (.wrap (.msg (go "unexpected type int for time field"))
          (go "fail to parse time value"))) ∧
      eventWithIntMessage.GetValue (go "@event_time") = (.str (go "earlier"), none) ∧
      (eventWithIntMessage = eventWithIntMessage ∧
        ((eventWithIntMessage.GetValue (go "message")).2 ≠ none ∨
          ∃ ts, tryToTime sampleHost unixTestProcessor
            (eventWithIntMessage.GetValue (go "message")).1 eventWithIntMessage
              = .ret (ts, some (.wrap (.msg (go "unexpected type int for time field"))
                (go "fail to parse time value"))))) :=
  ⟨by decide, by decide,
   C10_error_leaves_event sampleHost unixTestProcessor eventWithIntMessage eventWithIntMessage _
     (by decide)⟩

/-- Claim C11: when the conversion of the `message` value succeeds with an instant
`t`, in whatever location, `Run` returns no error and the target field holds `t` converted
to UTC: the same seconds and nanoseconds, in the location UTC whose offset is zero,
whatever the field held before; no other field changes. -/
theorem C11_success_writes_utc (h : Host) (p : processor) (event : Event) (val : Value) (t : Time)
    (hget : event.GetValue (go "message") = (val, none))
    (htry : tryToTime h p val event = .ret (t, none)) :
    Run h p event = .ret ((event.PutValue p.TargetField (.time t.toUTC)).1, none) ∧
      (event.PutValue p.TargetField (.time t.toUTC)).1.GetValue p.TargetField
        = (.time t.toUTC, none) ∧
      (t.toUTC.sec = t.sec ∧ t.toUTC.nsec = t.nsec) ∧
      (t.toUTC.loc = .UTC ∧ ∀ unix, t.toUTC.loc.offsetAt h unix = 0) ∧
      (∀ key, key ≠ p.TargetField →
        (event.PutValue p.TargetField (.time t.toUTC)).1.GetValue key = event.GetValue key) := by
  refine ⟨Run_of_tryToTime h p event val t hget htry, GetValue_PutValue _ _ _, ⟨rfl, rfl⟩,
    ⟨rfl, fun _ => rfl⟩, ?_⟩
  intro key hne
  simp only [Event.GetValue, Event.PutValue, lookup_set_ne _ _ _ _ hne]

/-- Claim C11, witness: the subtest `date` on an event that holds an earlier
`@event_time`; the instant parsed at +0800 is written in UTC over it. -/
theorem C11_witness :
    Run sampleHost dateTestProcessor
        ⟨Time.zero, [(go "@event_time", .str (go "earlier")), (go "message", .str dateTestMessage)]⟩
      = .ret (⟨Time.zero, [(go "@event_time", .time ⟨1611560692, 0, .UTC⟩),
          (go "message", .str dateTestMessage)]⟩, none) :=
  (C11_success_writes_utc sampleHost dateTestProcessor
    ⟨Time.zero, [(go "@event_time", .str (go "earlier")), (go "message", .str dateTestMessage)]⟩
    (.str dateTestMessage) ⟨1611560692, 0, .FixedZone [] 28800⟩ (by decide) (by decide)).1.trans
    (by decide)

/-- Claim C12: under the time format LOCAL, `tryToTime` returns the timestamp of the
event and no error for every value, of any type and content. -/
theorem C12_local_ignores_candidate (h : Host) (p : processor) (event : Event) (value : Value)
    (hloc : p.TimeFormat = go "LOCAL") :
    tryToTime h p value event = .ret (event.Timestamp, none) := by
  simp only [tryToTime, if_pos hloc]

/-- Claim C12, witness: a csv message with fewer pieces than the field index, on
which the extraction panics, and an integer: both give the timestamp of the event. -/
theorem C12_witness :
    parseTime sampleHost localProcessor (.str unixTestMessage) = .panic .indexRange ∧
      tryToTime sampleHost localProcessor (.str unixTestMessage)
          ⟨⟨1611560692, 0, .Local⟩, [(go "message", .str unixTestMessage)]⟩
        = .ret (⟨1611560692, 0, .Local⟩, none) ∧
      tryToTime sampleHost localProcessor (.int 7)
          ⟨⟨1611560692, 0, .Local⟩, [(go "message", .int 7)]⟩
        = .ret (⟨1611560692, 0, .Local⟩, none) :=
  ⟨by decide, C12_local_ignores_candidate sampleHost localProcessor _ _ (by decide),
    C12_local_ignores_candidate sampleHost localProcessor _ _ (by decide)⟩

/-- Claim C13 (amended): for every time format other than LOCAL (and every log
format), a source value that is a `time.Time` or a `common.Time` is returned by `tryToTime`
as it is, without error. -/
theorem C13_typed_instant_returned (h : Host) (p : processor) (event : Event) (t : Time)
    (hloc : p.TimeFormat ≠ go "LOCAL") :
    tryToTime h p (.time t) event = .ret (t, none) ∧
      tryToTime h p (.commonTime t) event = .ret (t, none) := by
  simp only [tryToTime, if_neg hloc, and_self]

/-- Claim C13, witness: a typed instant under UNIX. -/
theorem C13_witness :
    tryToTime sampleHost unixTestProcessor (.time ⟨1611560692, 0, .Local⟩)
        (eventOf (.time ⟨1611560692, 0, .Local⟩)) = .ret (⟨1611560692, 0, .Local⟩, none) ∧
      tryToTime sampleHost unixTestProcessor (.commonTime ⟨1611560692, 0, .Local⟩)
        (eventOf (.commonTime ⟨1611560692, 0, .Local⟩)) = .ret (⟨1611560692, 0, .Local⟩, none) :=
  C13_typed_instant_returned sampleHost unixTestProcessor _ _ (by decide)

/-- Claim C13, counterexample: under LOCAL a typed instant is not returned; the
timestamp of the event is. -/
theorem C13_counterexample :
    localProcessor.TimeFormat = go "LOCAL" ∧
      tryToTime sampleHost localProcessor (.time ⟨1611560692, 0, .Local⟩)
        (eventOf (.time ⟨1611560692, 0, .Local⟩)) = .ret (Time.zero, none) ∧
      Time.zero ≠ ⟨1611560692, 0, .Local⟩ := by
  decide

/-- Claim C14 (the code diverges): under UNIX, when the candidate is no integer the
float retry reads the whole source value, not the candidate: `parseValue` fails when the
whole value is no float, also when the candidate is one; under UNIX_MS the retry reads the
candidate. -/
theorem C14_unix_float_retry_reads_whole_value (h : Host) (p : processor) (raw cand : GoString)
    (hfmt : p.TimeFormat = go "UNIX")
    (hpt : parseTime h p (.str raw) = .ret (cand, none))
    (hint : TryToInt (.str cand) = none) :
    (h.TryToFloat64 (.str raw) = none →
        parseValue h p (.str raw)
          = .ret (Time.zero, some (.msg (go "could not parse time field as int or float")))) ∧
      (∀ x, h.TryToFloat64 (.str raw) = some x →
        parseValue h p (.str raw) = .ret (Unix 0 (h.scaleToInt64 x 1000000000), none)) ∧
      (∀ x, h.TryToFloat64 (.str cand) = some x →
        parseValue h { p with TimeFormat := go "UNIX_MS" } (.str raw)
          = .ret (Unix 0 (h.scaleToInt64 x 1000000), none)) := by
  refine ⟨?_, ?_, ?_⟩
  · intro hf
    simp only [parseValue, hpt, if_pos hfmt, hint, hf]
  · intro x hf
    simp only [parseValue, hpt, if_pos hfmt, hint, hf]
  · intro x hf
    have h1 : ¬ go "UNIX_MS" = go "UNIX" := by decide
    simp only [parseValue, parseTime_TimeFormat, hpt, if_neg h1, if_true, hint, hf]

/-- Claim C14, witness: the input of the claim; the candidate `1614235492.382` is a
float, UNIX answers with an error, UNIX_MS with an instant. -/
theorem C14_witness :
    parseTime floatHost floatProcessor (.str unixTestMessage)
        = .ret (go "1614235492.382", none) ∧
      floatHost.TryToFloat64 (.str (go "1614235492.382")) = some 4744557402376401584 ∧
      parseValue floatHost floatProcessor (.str unixTestMessage)
        = .ret (Time.zero, some (.msg (go "could not parse time field as int or float"))) ∧
      parseValue floatHost { floatProcessor with TimeFormat := go "UNIX_MS" }
          (.str unixTestMessage)
        = .ret (⟨1614235, 492382000, .Local⟩, none) :=
  ⟨by decide, by decide,
   (C14_unix_float_retry_reads_whole_value floatHost floatProcessor unixTestMessage
      (go "1614235492.382") (by decide) (by decide) (by decide)).1 (by decide),
   ((C14_unix_float_retry_reads_whole_value floatHost floatProcessor unixTestMessage
      (go "1614235492.382") (by decide) (by decide) (by decide)).2.2 4744557402376401584
      (by decide)).trans (by decide)⟩

/-- Claim C15 (amended): under UNIX_MS, when the candidate is the decimal
representation of an integer `n` whose product with 1,000,000 lies in the 64-bit signed
range, `parseValue` returns without error the instant exactly `n` milliseconds after the
Unix epoch. -/
theorem C15_unix_ms (h : Host) (p : processor) (v : Value) (n : Int)
    (hfmt : p.TimeFormat = go "UNIX_MS")
    (hpt : parseTime h p v = .ret (decimal n, none))
    (hlo : -2 ^ 63 ≤ n * 1000000) (hhi : n * 1000000 < 2 ^ 63) :
    parseValue h p v = .ret (Unix 0 (n * 1000000), none) ∧
      (Unix 0 (n * 1000000)).sec * 1000000000 + (Unix 0 (n * 1000000)).nsec = n * 1000000 ∧
      0 ≤ (Unix 0 (n * 1000000)).nsec ∧ (Unix 0 (n * 1000000)).nsec < 1000000000 := by
  have h1 : ¬ p.TimeFormat = go "UNIX" := by rw [hfmt]; decide
  have hint : TryToInt (.str (decimal n)) = some n := by
    simp only [TryToInt]
    exact Atoi_decimal n (by omega) (by omega)
  refine ⟨?_, ?_, ?_, ?_⟩
  · simp only [parseValue, hpt, if_neg h1, if_pos hfmt, hint, wrapInt64_of_range _ hlo hhi]
  · simp only [Unix]
    omega
  · simp only [Unix]
    omega
  · simp only [Unix]
    omega

/-- Claim C15, witness: 1611560692000 milliseconds are 1611560692 seconds. -/
theorem C15_witness :
    parseValue sampleHost (msProcessor (go "1611560692000")) (.str (go "1611560692000"))
        = .ret (⟨1611560692, 0, .Local⟩, none) :=
  (C15_unix_ms sampleHost (msProcessor (go "1611560692000")) (.str (go "1611560692000"))
    1611560692000 (by decide) (by decide) (by norm_num) (by norm_num)).1.trans (by decide)

/-- Claim C15, counterexample: 9223372036855 lies in the 64-bit signed range, its
product with 1,000,000 does not; the product wraps around and the instant returned lies
before the epoch. -/
theorem C15_counterexample :
    go "9223372036855" = decimal 9223372036855 ∧
      (-2 ^ 63 ≤ (9223372036855 : Int) ∧ (9223372036855 : Int) < 2 ^ 63) ∧
      parseValue sampleHost (msProcessor (go "9223372036855")) (.str (go "9223372036855"))
        = .ret (⟨-9223372037, 145448384, .Local⟩, none) ∧
      (-9223372037 : Int) * 1000000000 + 145448384 ≠ 9223372036855 * 1000000 := by
  decide

/-- Claim C16 (amended): under the layout-based policy, when the layout parse
succeeds with a result `ts` of year 0 (a `time.Time`, its nanoseconds in 0..999999999),
`parseValue` returns `ts.AddDate(y, 0, 0)`, in the location of `ts`, where `y` is the
current year as the clock shows it in the location of `ts`; when the wall-clock reading of
`ts` moved to the year `y` exists in that location (always in UTC and in a fixed zone), the
calendar year of the returned instant in that location is `y`; and `y` is the current year
of the resolved zone when `ts` is in the resolved zone. -/
theorem C16_year_inference (h : Host) (p : processor) (v : Value) (cand : GoString) (ts : Time)
    (hunix : p.TimeFormat ≠ go "UNIX") (hms : p.TimeFormat ≠ go "UNIX_MS")
    (hpt : parseTime h p v = .ret (cand, none))
    (hparse : h.ParseInLocation p.TimeLayout cand p.tz = (ts, none))
    (hyear : ts.Year h = 0) :
    parseValue h p v = .ret (ts.AddDate h ((h.Now.In ts.Location).Year h) 0 0, none) ∧
      (ts.AddDate h ((h.Now.In ts.Location).Year h) 0 0).Location = ts.Location ∧
      ((0 ≤ ts.nsec ∧ ts.nsec < 1000000000) →
        h.readsBackAt ts.loc (ts.movedWall h ((h.Now.In ts.Location).Year h)) →
        (ts.AddDate h ((h.Now.In ts.Location).Year h) 0 0).Year h
            = (h.Now.In ts.Location).Year h ∧
          (ts.Location = p.tz →
            (ts.AddDate h ((h.Now.In ts.Location).Year h) 0 0).Year h
              = (h.Now.In p.tz).Year h)) := by
  refine ⟨?_, rfl, ?_⟩
  · simp only [parseValue, hpt, if_neg hunix, if_neg hms, hparse, hyear, if_true]
  · intro hn hz
    have hy : (ts.AddDate h ((h.Now.In ts.Location).Year h) 0 0).Year h
        = (h.Now.In ts.Location).Year h := by
      rw [Year_AddDate h ts _ hn hz, hyear, zero_add]
    refine ⟨hy, ?_⟩
    intro hloc
    rw [hy, hloc]

/-- Claim C16, witness: a candidate without year and zone, parsed in the resolved
zone, once UTC and once the database zone `Asia/Dubai`, where the reading moved to 2021
exists (one of early 1920 would not); the clock stands in 2021 and so does the result. -/
theorem C16_witness :
    (parseValue sampleHost yearlessProcessor (.str yearlessMessage)
        = .ret (⟨1611589492, 0, .UTC⟩, none) ∧
      Time.Year sampleHost ⟨1611589492, 0, .UTC⟩ = 2021 ∧
      (sampleHost.Now.In yearlessProcessor.tz).Year sampleHost = 2021) ∧
    (parseValue dubaiHost dubaiProcessor (.str yearlessMessage)
        = .ret (⟨1611575092, 0, .named (go "Asia/Dubai")⟩, none) ∧
      Time.Year dubaiHost ⟨1611575092, 0, .named (go "Asia/Dubai")⟩ = 2021 ∧
      (dubaiHost.Now.In dubaiProcessor.tz).Year dubaiHost = 2021) ∧
    (Time.AddDate dubaiHost ⟨-62165102180, 0, .named (go "Asia/Dubai")⟩
        ((dubaiHost.Now.In (.named (go "Asia/Dubai"))).Year dubaiHost) 0 0).Year dubaiHost
      = (dubaiHost.Now.In dubaiProcessor.tz).Year dubaiHost ∧
    ¬ dubaiHost.readsBackAt (.named (go "Asia/Dubai")) (-1577923200) :=
  ⟨⟨(C16_year_inference sampleHost yearlessProcessor (.str yearlessMessage)
      (go "25/Jan 15:44:52") ⟨-62165088908, 0, .UTC⟩ (by decide) (by decide) (by decide)
      (by decide) (by decide)).1.trans (by decide),
    by decide, by decide⟩,
   ⟨(C16_year_inference dubaiHost dubaiProcessor (.str yearlessMessage)
      (go "25/Jan 15:44:52") ⟨-62165102180, 0, .named (go "Asia/Dubai")⟩ (by decide) (by decide)
      (by decide) (by decide) (by decide)).1.trans (by decide),
    by decide, by decide⟩,
   ((C16_year_inference dubaiHost dubaiProcessor (.str yearlessMessage)
      (go "25/Jan 15:44:52") ⟨-62165102180, 0, .named (go "Asia/Dubai")⟩ (by decide) (by decide)
      (by decide) (by decide) (by decide)).2.2 (by decide)
      (by simp only [Host.readsBackAt]; decide)).2 (by decide),
   by simp only [Host.readsBackAt]; decide⟩

/-- Claim C16, counterexample: on 2020-12-31T20:00:00Z, in the resolved zone UTC,
the yearless candidate `02/Jan 04:30:00 +0800` carries its own offset; eight hours east
the year is 2021 already, and the result is of 2021, not of the current year of the
resolved zone, 2020. -/
theorem C16_counterexample :
    newYearHost.ParseInLocation (textProcessor (go "02/Jan 15:04:05 -0700") 0).TimeLayout
        (go "02/Jan 04:30:00 +0800") (textProcessor (go "02/Jan 15:04:05 -0700") 0).tz
      = (⟨-62167145400, 0, .FixedZone [] 28800⟩, none) ∧
    Time.Year newYearHost ⟨-62167145400, 0, .FixedZone [] 28800⟩ = 0 ∧
    parseValue newYearHost (textProcessor (go "02/Jan 15:04:05 -0700") 0)
        (.str (go "02/Jan 04:30:00 +0800"))
      = .ret (⟨1609533000, 0, .FixedZone [] 28800⟩, none) ∧
    Time.Year newYearHost ⟨1609533000, 0, .FixedZone [] 28800⟩ = 2021 ∧
    Time.Year newYearHost
      (Time.In ⟨1609533000, 0, .FixedZone [] 28800⟩
        (textProcessor (go "02/Jan 15:04:05 -0700") 0).tz) = 2021 ∧
    (newYearHost.Now.In (textProcessor (go "02/Jan 15:04:05 -0700") 0).tz).Year newYearHost
      = 2020 := by
  decide

/-- The three cases of `loadLocation` on a specifier: a fixed-offset form
time.Parse accepts gives a fixed zone of that offset; a specifier of no such
form, and a form time.Parse refuses for its range, go to the zone database. -/
theorem loadLocation_forms (h : Host) (timezone : GoString) :
    (∀ sg hh mm, offsetForm timezone = some (sg, hh, mm) →
        (h.zoneRangeChecked = true → hh ≤ 24 ∧ mm ≤ 60) →
        ∃ name, loadLocation h timezone
          = .ok (.FixedZone name (sg * ((hh : Int) * 3600 + (mm : Int) * 60)))) ∧
      (offsetForm timezone = none → loadLocation h timezone = h.LoadLocation timezone) ∧
      (∀ sg hh mm, offsetForm timezone = some (sg, hh, mm) → h.zoneRangeChecked = true →
        (24 < hh ∨ 60 < mm) → loadLocation h timezone = h.LoadLocation timezone) := by
  unfold loadLocation
  rw [timezoneFormats_eq]
  rcases timezone with _ | ⟨s, _ | ⟨a, _ | ⟨b, _ | ⟨c, _ | ⟨d, _ | ⟨e, _ | ⟨f, rest⟩⟩⟩⟩⟩⟩⟩
  case cons.cons.cons.nil =>
    have p2 := parseZoneOffset_plain_length h [s, a, b] (by simp)
    have p3 := parseZoneOffset_colon_length h [s, a, b] (by simp)
    refine ⟨?_, ?_, ?_⟩
    · intro sg hh mm hf hr
      simp only [offsetForm] at hf
      split at hf
      · rename_i hc
        simp only [Option.some.injEq, Prod.mk.injEq] at hf
        obtain ⟨rfl, rfl, rfl⟩ := hf
        apply loadLocationLoop_some
        rw [parseZoneOffset_short, if_pos]
        · refine ⟨hc.1, hc.2.1, hc.2.2, ?_⟩
          intro hbad
          have := (hr hbad.1).1
          omega
      · cases hf
    · intro hf
      simp only [offsetForm] at hf
      split at hf
      · cases hf
      · rename_i hc
        rw [loadLocationLoop_none, loadLocationLoop_none _ _ _ _ p2,
          loadLocationLoop_none _ _ _ _ p3]
        · rfl
        · rw [parseZoneOffset_short, if_neg]
          intro hx
          exact hc ⟨hx.1, hx.2.1, hx.2.2.1⟩
    · intro sg hh mm hf hchk hbad
      simp only [offsetForm] at hf
      split at hf
      · rename_i hc
        simp only [Option.some.injEq, Prod.mk.injEq] at hf
        obtain ⟨rfl, rfl, rfl⟩ := hf
        rw [loadLocationLoop_none, loadLocationLoop_none _ _ _ _ p2,
          loadLocationLoop_none _ _ _ _ p3]
        · rfl
        · rw [parseZoneOffset_short, if_neg]
          intro hx
          apply hx.2.2.2
          refine ⟨hchk, ?_⟩
          omega
      · cases hf
  case cons.cons.cons.cons.cons.nil =>
    have p1 := parseZoneOffset_short_length h [s, a, b, c, d] (by simp)
    have p3 := parseZoneOffset_colon_length h [s, a, b, c, d] (by simp)
    refine ⟨?_, ?_, ?_⟩
    · intro sg hh mm hf hr
      simp only [offsetForm] at hf
      split at hf
      · rename_i hc
        simp only [Option.some.injEq, Prod.mk.injEq] at hf
        obtain ⟨rfl, rfl, rfl⟩ := hf
        rw [loadLocationLoop_none _ _ _ _ p1]
        apply loadLocationLoop_some
        rw [parseZoneOffset_plain, if_pos]
        refine ⟨hc.1, hc.2.1, hc.2.2.1, hc.2.2.2.1, hc.2.2.2.2, ?_⟩
        intro hbad
        have := hr hbad.1
        omega
      · cases hf
    · intro hf
      simp only [offsetForm] at hf
      split at hf
      · cases hf
      · rename_i hc
        rw [loadLocationLoop_none _ _ _ _ p1, loadLocationLoop_none,
          loadLocationLoop_none _ _ _ _ p3]
        · rfl
        · rw [parseZoneOffset_plain, if_neg]
          intro hx
          exact hc ⟨hx.1, hx.2.1, hx.2.2.1, hx.2.2.2.1, hx.2.2.2.2.1⟩
    · intro sg hh mm hf hchk hbad
      simp only [offsetForm] at hf
      split at hf
      · rename_i hc
        simp only [Option.some.injEq, Prod.mk.injEq] at hf
        obtain ⟨rfl, rfl, rfl⟩ := hf
        rw [loadLocationLoop_none _ _ _ _ p1, loadLocationLoop_none,
          loadLocationLoop_none _ _ _ _ p3]
        · rfl
        · rw [parseZoneOffset_plain, if_neg]
          intro hx
          apply hx.2.2.2.2.2
          refine ⟨hchk, ?_⟩
          omega
      · cases hf
  case cons.cons.cons.cons.cons.cons.nil =>
    have p1 := parseZoneOffset_short_length h [s, a, b, c, d, e] (by simp)
    have p2 := parseZoneOffset_plain_length h [s, a, b, c, d, e] (by simp)
    refine ⟨?_, ?_, ?_⟩
    · intro sg hh mm hf hr
      simp only [offsetForm] at hf
      split at hf
      · rename_i hc
        simp only [Option.some.injEq, Prod.mk.injEq] at hf
        obtain ⟨rfl, rfl, rfl⟩ := hf
        obtain ⟨h1, h2, h3, rfl, h5, h6⟩ := hc
        rw [loadLocationLoop_none _ _ _ _ p1, loadLocationLoop_none _ _ _ _ p2]
        apply loadLocationLoop_some
        rw [parseZoneOffset_colon, if_pos]
        refine ⟨h1, h2, h3, h5, h6, ?_⟩
        intro hbad
        have := hr hbad.1
        omega
      · cases hf
    · intro hf
      simp only [offsetForm] at hf
      split at hf
      · cases hf
      · rename_i hc
        rw [loadLocationLoop_none _ _ _ _ p1, loadLocationLoop_none _ _ _ _ p2,
          loadLocationLoop_none]
        · rfl
        · by_cases hcol : c = 58
          · subst hcol
            rw [parseZoneOffset_colon, if_neg]
            intro hx
            exact hc ⟨hx.1, hx.2.1, hx.2.2.1, rfl, hx.2.2.2.1, hx.2.2.2.2.1⟩
          · exact parseZoneOffset_colon_other h s a b c d e hcol
    · intro sg hh mm hf hchk hbad
      simp only [offsetForm] at hf
      split at hf
      · rename_i hc
        simp only [Option.some.injEq, Prod.mk.injEq] at hf
        obtain ⟨rfl, rfl, rfl⟩ := hf
        obtain ⟨h1, h2, h3, rfl, h5, h6⟩ := hc
        rw [loadLocationLoop_none _ _ _ _ p1, loadLocationLoop_none _ _ _ _ p2,
          loadLocationLoop_none]
        · rfl
        · rw [parseZoneOffset_colon, if_neg]
          intro hx
          apply hx.2.2.2.2.2
          refine ⟨hchk, ?_⟩
          omega
      · cases hf
  all_goals
    refine ⟨fun sg hh mm hf => ?_, fun _ => ?_, fun sg hh mm hf => ?_⟩
    · simp [offsetForm] at hf
    · rw [loadLocationLoop_none _ _ _ _ (parseZoneOffset_short_length h _ (by simp)),
        loadLocationLoop_none _ _ _ _ (parseZoneOffset_plain_length h _ (by simp)),
        loadLocationLoop_none _ _ _ _ (parseZoneOffset_colon_length h _ (by simp))]
      rfl
    · simp [offsetForm] at hf

/-- Claim C17 (amended): for a specifier of the form sign and `HH`, `HHMM` or
`HH:MM` with `HH ≤ 24` and `MM ≤ 60`, `loadLocation` returns, without a look into the zone
database, a fixed zone whose offset is sign * (HH * 3600 + MM * 60) seconds; for larger
`HH` or `MM` it does so where the Go release does not check the range of a zone offset, and
returns the result of the zone database where the release does; for every specifier of none
of the three forms the result is that of the zone database. -/
theorem C17_loadLocation (h : Host) (timezone : GoString) :
    (∀ sg hh mm, offsetForm timezone = some (sg, hh, mm) → hh ≤ 24 → mm ≤ 60 →
        ∃ name, loadLocation h timezone
          = .ok (.FixedZone name (sg * ((hh : Int) * 3600 + (mm : Int) * 60)))) ∧
      (∀ sg hh mm, offsetForm timezone = some (sg, hh, mm) → h.zoneRangeChecked = false →
        ∃ name, loadLocation h timezone
          = .ok (.FixedZone name (sg * ((hh : Int) * 3600 + (mm : Int) * 60)))) ∧
      (∀ sg hh mm, offsetForm timezone = some (sg, hh, mm) → h.zoneRangeChecked = true →
        (24 < hh ∨ 60 < mm) → loadLocation h timezone = h.LoadLocation timezone) ∧
      (offsetForm timezone = none → loadLocation h timezone = h.LoadLocation timezone) := by
  obtain ⟨h1, h2, h3⟩ := loadLocation_forms h timezone
  refine ⟨?_, ?_, h3, h2⟩
  · intro sg hh mm hf hh24 mm60
    exact h1 sg hh mm hf (fun _ => ⟨hh24, mm60⟩)
  · intro sg hh mm hf hoff
    refine h1 sg hh mm hf (fun hon => ?_)
    rw [hoff] at hon
    cases hon

/-- Claim C17, witness: the three fixed-offset forms, a name the zone database has
and one it has not. -/
theorem C17_witness :
    (∃ name, loadLocation sampleHost (go "-07:30")
        = .ok (.FixedZone name (-1 * (((7 : Nat) : Int) * 3600 + ((30 : Nat) : Int) * 60)))) ∧
      loadLocation sampleHost (go "-07:30") = .ok (.FixedZone [] (-27000)) ∧
      loadLocation sampleHost (go "+08") = .ok (.FixedZone [] 28800) ∧
      loadLocation sampleHost (go "+0800") = .ok (.FixedZone [] 28800) ∧
      (∃ name, loadLocation rangeCheckingHost (go "+2400")
        = .ok (.FixedZone name (1 * (((24 : Nat) : Int) * 3600 + ((0 : Nat) : Int) * 60)))) ∧
      loadLocation sampleHost (go "UTC") = .ok .UTC ∧
      loadLocation sampleHost (go "Mars/Phobos") = sampleHost.LoadLocation (go "Mars/Phobos") :=
  ⟨(C17_loadLocation sampleHost (go "-07:30")).1 (-1) 7 30 (by decide) (by decide) (by decide),
   rfl, rfl, rfl,
   (C17_loadLocation rangeCheckingHost (go "+2400")).1 1 24 0 (by decide) (by decide)
     (by decide),
   ((C17_loadLocation sampleHost (go "UTC")).2.2.2 (by decide)).trans rfl,
   (C17_loadLocation sampleHost (go "Mars/Phobos")).2.2.2 (by decide)⟩

/-- Claim C17, counterexample: on a Go release that checks the range of a zone
offset, the specifier `+2500` is of the form sign and `HHMM`, yet time.Parse refuses it
under all three layouts and `loadLocation` returns what the zone database says, an error,
not the fixed zone of 25 hours. -/
theorem C17_counterexample :
    offsetForm (go "+2500") = some (1, 25, 0) ∧
      loadLocation rangeCheckingHost (go "+2500") = .error (.msg (go "unknown time zone")) ∧
      ¬ ∃ name, loadLocation rangeCheckingHost (go "+2500")
        = .ok (.FixedZone name (1 * (((25 : Nat) : Int) * 3600 + ((0 : Nat) : Int) * 60))) := by
  refine ⟨by decide, rfl, ?_⟩
  rintro ⟨name, hname⟩
  have herr : loadLocation rangeCheckingHost (go "+2500")
      = .error (.msg (go "unknown time zone")) := rfl
  rw [herr] at hname
  cases hname

/-- Claim C18: with the same host (the clock held fixed), when `Run` succeeds on an
event, `Run` on the resulting event succeeds and returns that event again; its target field
holds an instant in UTC. -/
theorem C18_run_idempotent (h : Host) (p : processor) (event event1 : Event)
    (hrun : Run h p event = .ret (event1, none)) :
    Run h p event1 = .ret (event1, none) ∧
      ∃ t, event1.GetValue p.TargetField = (.time t, none) ∧ t.loc = .UTC := by
  unfold Run at hrun
  rcases hg : event.GetValue (go "message") with ⟨val, _ | e⟩
  · rw [hg] at hrun
    simp only at hrun
    rcases ht : tryToTime h p val event with ⟨ts, _ | e2⟩ | k
    · rw [ht] at hrun
      simp only [Event.PutValue, Outcome.ret.injEq, Prod.mk.injEq, and_true] at hrun
      have hput : event1 = (event.PutValue p.TargetField (.time ts.toUTC)).1 := hrun.symm
      have hts : event1.Timestamp = event.Timestamp := by rw [hput]; rfl
      have hself : (event1.PutValue p.TargetField (.time ts.toUTC)).1 = event1 := by
        rw [hput]
        simp only [Event.PutValue, set_set]
      refine ⟨?_, ts.toUTC, by rw [hput]; exact GetValue_PutValue _ _ _, rfl⟩
      by_cases hk : p.TargetField = go "message"
      · have hg1 : event1.GetValue (go "message") = (.time ts.toUTC, none) := by
          rw [hput, ← hk]
          exact GetValue_PutValue _ _ _
        by_cases hloc : p.TimeFormat = go "LOCAL"
        · have ht1 : tryToTime h p (.time ts.toUTC) event1 = .ret (ts, none) := by
            simp only [tryToTime, if_pos hloc, Outcome.ret.injEq, Prod.mk.injEq, and_true] at ht ⊢
            rw [hts, ht]
          rw [Run_of_tryToTime h p event1 _ _ hg1 ht1, hself]
        · have ht1 : tryToTime h p (.time ts.toUTC) event1 = .ret (ts.toUTC, none) := by
            simp only [tryToTime, if_neg hloc]
          rw [Run_of_tryToTime h p event1 _ _ hg1 ht1, toUTC_toUTC, hself]
      · have hg1 : event1.GetValue (go "message") = (val, none) := by
          rw [← hg, hput]
          simp only [Event.GetValue, Event.PutValue, lookup_set_ne _ _ _ _ (Ne.symm hk)]
        have ht1 : tryToTime h p val event1 = .ret (ts, none) := by
          rw [tryToTime_timestamp h p val event1 event hts, ht]
        rw [Run_of_tryToTime h p event1 _ _ hg1 ht1, hself]
    · rw [ht] at hrun
      simp at hrun
    · rw [ht] at hrun
      cases hrun
  · rw [hg] at hrun
    simp at hrun

/-- Claim C18, witness: the subtest `UNIX` run twice. -/
theorem C18_witness :
    Run sampleHost unixTestProcessor (eventOf (.str unixTestMessage)) =
        .ret (⟨Time.zero, [(go "message", .str unixTestMessage),
          (go "@event_time", .time ⟨1611560692, 0, .UTC⟩)]⟩, none) ∧
      Run sampleHost unixTestProcessor ⟨Time.zero, [(go "message", .str unixTestMessage),
          (go "@event_time", .time ⟨1611560692, 0, .UTC⟩)]⟩ =
        .ret (⟨Time.zero, [(go "message", .str unixTestMessage),
          (go "@event_time", .time ⟨1611560692, 0, .UTC⟩)]⟩, none) :=
  ⟨by decide,
   (C18_run_idempotent sampleHost unixTestProcessor (eventOf (.str unixTestMessage)) _
      (by decide)).1⟩

/-- Claim C19 (amended): for a string source value and every time format other
than exactly `UNIX`, `UNIX_MS` and `LOCAL`, `tryToTime` returns what it returns under
`DATE`: when the extraction gives a candidate, the result of the layout-based parse of that
candidate with `TimeLayout` in the resolved zone, moved forward by the current year when
the parse succeeds with year 0, and the parser's result and error when the parse fails;
when the extraction fails, the zero instant with the wrapped error of the extraction; and
a panic of the extraction is a panic of `tryToTime`. -/
theorem C19_other_formats_use_layout (h : Host) (p : processor) (event : Event)
    (raw : GoString) (hunix : p.TimeFormat ≠ go "UNIX") (hms : p.TimeFormat ≠ go "UNIX_MS")
    (hloc : p.TimeFormat ≠ go "LOCAL") :
    tryToTime h p (.str raw) event
        = tryToTime h { p with TimeFormat := go "DATE" } (.str raw) event ∧
      (∀ cand, parseTime h p (.str raw) = .ret (cand, none) →
        tryToTime h p (.str raw) event =
          match h.ParseInLocation p.TimeLayout cand p.tz with
          | (ts, none) =>
            .ret (if ts.Year h = 0 then ts.AddDate h ((h.Now.In ts.Location).Year h) 0 0 else ts,
              none)
          | (ts, some err) => .ret (ts, some err)) ∧
      (∀ cand err, parseTime h p (.str raw) = .ret (cand, some err) →
        tryToTime h p (.str raw) event
          = .ret (Time.zero, some (.wrap err (go "fail to parse time value")))) ∧
      (∀ k, parseTime h p (.str raw) = .panic k → tryToTime h p (.str raw) event = .panic k) := by
  have d1 : ¬ go "DATE" = go "UNIX" := by decide
  have d2 : ¬ go "DATE" = go "UNIX_MS" := by decide
  have d3 : ¬ go "DATE" = go "LOCAL" := by decide
  refine ⟨?_, ?_, ?_, ?_⟩
  · simp only [tryToTime, if_neg hloc, if_neg d3, parseValue, parseTime_TimeFormat, if_neg hunix,
      if_neg hms, if_neg d1, if_neg d2]
  · intro cand hpt
    simp only [tryToTime, if_neg hloc, parseValue, hpt, if_neg hunix, if_neg hms]
    rcases h.ParseInLocation p.TimeLayout cand p.tz with ⟨ts, _ | err⟩
    · by_cases hy : ts.Year h = 0
      · simp only [hy, if_true]
      · simp only [hy, if_false]
    · rfl
  · intro cand err hpt
    simp only [tryToTime, if_neg hloc, parseValue, hpt]
  · intro k hpt
    simp only [tryToTime, if_neg hloc, parseValue, hpt]

/-- Claim C19, witness: under `unix` in lower case the candidate `1611560692` goes to
the layout parser, which refuses it; under the empty format the subtest `date` parses. -/
theorem C19_witness :
    tryToTime sampleHost lowerUnixProcessor (.str unixTestMessage)
        (eventOf (.str unixTestMessage))
      = .ret (Time.zero, some (.msg (go "parsing time: cannot parse"))) ∧
    tryToTime sampleHost { dateTestProcessor with TimeFormat := [] } (.str dateTestMessage)
        (eventOf (.str dateTestMessage))
      = .ret (⟨1611560692, 0, .FixedZone [] 28800⟩, none) :=
  ⟨((C19_other_formats_use_layout sampleHost lowerUnixProcessor (eventOf (.str unixTestMessage))
      unixTestMessage (by decide) (by decide) (by decide)).2.1 (go "1611560692")
      (by decide)).trans (by decide),
   ((C19_other_formats_use_layout sampleHost { dateTestProcessor with TimeFormat := [] }
      (eventOf (.str dateTestMessage)) dateTestMessage (by decide) (by decide) (by decide)).2.1
      (go "25/Jan/2021:15:44:52 +0800") (by decide)).trans (by decide)⟩

/-- Claim C19, counterexample: under the time format `date` and a layout without
year, the layout parser reads the candidate `25/Jan 15:44:52` as an instant of year 0, and
`tryToTime` returns that reading in the year of the clock, 2021, not the parser's result. -/
theorem C19_counterexample :
    yearlessProcessor.TimeFormat = go "date" ∧
      parseTime sampleHost yearlessProcessor (.str yearlessMessage)
        = .ret (go "25/Jan 15:44:52", none) ∧
      sampleHost.ParseInLocation yearlessProcessor.TimeLayout (go "25/Jan 15:44:52")
          yearlessProcessor.tz = (⟨-62165088908, 0, .UTC⟩, none) ∧
      tryToTime sampleHost yearlessProcessor (.str yearlessMessage)
          (eventOf (.str yearlessMessage)) = .ret (⟨1611589492, 0, .UTC⟩, none) ∧
      (⟨1611589492, 0, .UTC⟩ : Time) ≠ ⟨-62165088908, 0, .UTC⟩ := by
  decide

/-- Claim C20: outside LOCAL, a source value that is neither a string nor a typed
instant is refused by the extraction, before any time format is looked at, and `Run`
returns the event as it is with the wrapped error. -/
theorem C20_non_string_rejected (h : Host) (p : processor) (event : Event) (v : Value)
    (hget : event.GetValue (go "message") = (v, none)) (hloc : p.TimeFormat ≠ go "LOCAL")
    (hs : ∀ s, v ≠ .str s) (ht : ∀ t, v ≠ .time t) (hc : ∀ t, v ≠ .commonTime t) :
    parseTime h p v
        = .ret ([], some (.msg (go "unexpected type " ++ v.typeName ++ go " for time field"))) ∧
      Run h p event = .ret (event, some (.wrap
        (.msg (go "unexpected type " ++ v.typeName ++ go " for time field"))
        (go "fail to parse time value"))) := by
  cases v with
  | str s => exact absurd rfl (hs s)
  | time t => exact absurd rfl (ht t)
  | commonTime t => exact absurd rfl (hc t)
  | _ => exact ⟨rfl, by simp only [Run, hget, tryToTime, if_neg hloc, parseValue, parseTime]⟩

/-- Claim C20, witness: an integer under UNIX and a float64 under UNIX_MS. -/
theorem C20_witness :
    Run sampleHost unixTestProcessor eventWithIntMessage =
        .ret (eventWithIntMessage, some (.wrap (.msg (go "unexpected type int for time field"))
          (go "fail to parse time value"))) ∧
      Run sampleHost (msProcessor (go "1611560692000"))
          (eventOf (.float64 4744546183450460160)) =
        .ret (eventOf (.float64 4744546183450460160),
          some (.wrap (.msg (go "unexpected type float64 for time field"))
            (go "fail to parse time value"))) :=
  ⟨(C20_non_string_rejected sampleHost unixTestProcessor eventWithIntMessage (.int 1611560692)
      (by decide) (by decide) (fun _ hv => Value.noConfusion hv)
      (fun _ hv => Value.noConfusion hv) (fun _ hv => Value.noConfusion hv)).2,
   (C20_non_string_rejected sampleHost (msProcessor (go "1611560692000"))
      (eventOf (.float64 4744546183450460160)) (.float64 4744546183450460160)
      (by decide) (by decide) (fun _ hv => Value.noConfusion hv)
      (fun _ hv => Value.noConfusion hv) (fun _ hv => Value.noConfusion hv)).2⟩

end event_time
